import Mathlib

/-! # Verification of the simulator's token model and of its collaborators

A shallow embedding of `TokenImpl` (`model/entities/_impl/tokenimpl.cpp`) and of
the Qt byte-array operations it uses, followed by the settings encoding
(`EngineInterface/Parser.h`), the compartment grid and thread controller
declarations, the parser of the simulation list (`Web/Parser.cpp`), the web
controller (`Web/WebControllerImpl.cpp`), the autosave controller
(`Gui/AutosaveController.cpp`) and the menu bar with its hotkeys
(`Gui/MainWindow.cpp`).

A `TokenImpl` is its two data members `_memory` and `_energy`; the
`_context` pointer is followed at call time, so every operation takes the
`SimulationParameters` (and, where it draws random numbers, the
`NumberGenerator`) that the pointer refers to when the operation runs.

Results are `Option`: `none` stands for undefined behaviour of the C++ code
(an out-of-bounds read of a `const QByteArray`, a remainder by zero).
Exceptions are `Except`.
-/

namespace Alien

/-! ## Bytes and `char` -/

/-- One byte of storage: the 8 bits held by a `char`, as a number `0..255`. -/
abbrev Byte := Fin 256

/-- The value of a stored byte when it is read as a C++ `char`.  The signedness
of `char` is fixed by the platform ABI: signed on x86 and x86-64 (the desktop
targets of this Qt application), unsigned on a few others, hence the flag. -/
def charValue (charSigned : Bool) (b : Byte) : Int :=
  if charSigned && decide (128 ≤ b.val) then (b.val : Int) - 256 else (b.val : Int)

/-- Conversion of an `int` to `char` on assignment: the low 8 bits are kept. -/
def byteOfInt (x : Int) : Byte :=
  ⟨(x % 256).toNat, by omega⟩

/-! ## `QByteArray` -/

/-- A `QByteArray` is its sequence of bytes. -/
abbrev QByteArray := List Byte

namespace QByteArray

/-- Constructor `QByteArray(int size, char ch)`: `size` copies of `ch`, empty when
`size <= 0`. -/
def filled (size : Int) (ch : Byte) : QByteArray :=
  List.replicate size.toNat ch

/-- Method `QByteArray::left(int len)`: the whole array when `len >= size()`, the empty
array when `len < 0`, else the first `len` bytes. -/
def left (a : QByteArray) (len : Int) : QByteArray :=
  a.take len.toNat

/-- Method `QByteArray::resize(int size)`: a negative size counts as 0; shrinking keeps
the first `size` bytes; growing appends bytes that Qt leaves uninitialized
("the new bytes are uninitialized").  `junk i` is whatever the allocator left
at position `i`. -/
def resize (a : QByteArray) (size : Int) (junk : Nat → Byte) : QByteArray :=
  if size.toNat ≤ a.length then a.take size.toNat
  else a ++ (List.range (size.toNat - a.length)).map fun k => junk (a.length + k)

/-- Read access `char QByteArray::operator[](int i) const`: defined only for
`0 <= i < size()`. -/
def at? (a : QByteArray) (i : Int) : Option Byte :=
  if 0 ≤ i then a.get? i.toNat else none

/-- Assignment through `QByteRef` at an index inside the array
(`a[i] = c` with `0 <= i < size()`). -/
def setAt (a : QByteArray) (i : Nat) (c : Byte) : QByteArray :=
  a.set i c

end QByteArray

/-! ## Simulation parameters and the number generator -/

/-- The two fields of `SimulationParameters` read by `TokenImpl`
(both C++ `int`). -/
structure SimulationParameters where
  tokenMemorySize : Int
  cellMaxTokenBranchNumber : Int
  deriving DecidableEq, Repr

/-- The context's `NumberGenerator`, whose class is not part of the token
source: it is taken as the sequence of values its successive calls return
(`pending k` is the result of call number `k`) and the number of calls made. -/
structure NumberGenerator where
  pending : Nat → Int
  calls : Nat

/-- Method `NumberGenerator::getRandomInt(range)`: returns the next value and
advances the generator; no bound on the value is assumed. -/
def NumberGenerator.getRandomInt (g : NumberGenerator) (_range : Int) :
    Int × NumberGenerator :=
  (g.pending g.calls, { g with calls := g.calls + 1 })

/-- A counted loop `for (int i = lo; i < lo + count; ++i) body(i)` over a state;
the loop stops with `none` as soon as an iteration is undefined. -/
def forLoop {σ : Type} (body : Nat → σ → Option σ) : Nat → Nat → σ → Option σ
  | 0, _, s => some s
  | count + 1, i, s => (body i s).bind (forLoop body count (i + 1))

/-! ## `TokenImpl` -/

/-- What `QDataStream` carries for a token: byte arrays and reals, in the order
they were written. -/
inductive StreamItem where
  | bytes (b : QByteArray)
  | real (x : ℚ)
  deriving DecidableEq

/-- A `QDataStream` is the sequence of items still to be read. -/
abbrev QDataStream := List StreamItem

/-- The data members of `TokenImpl`: `_memory` and `_energy` (a `qreal`; the
token code only stores and copies it, so it is taken as an exact number). -/
structure TokenImpl where
  memory : QByteArray
  energy : ℚ
  deriving DecidableEq

namespace TokenImpl

/-- Constructor `TokenImpl::TokenImpl(UnitContext* context)`: zero-filled memory of the
configured size; `_energy` keeps its initial value, passed here as `energy0`
(the class declaration is not part of this source file). -/
def create (p : SimulationParameters) (energy0 : ℚ) : TokenImpl :=
  { memory := QByteArray.filled p.tokenMemorySize 0, energy := energy0 }

/-- The body of the loop of the `randomData` constructor:
`_memory[i] = context->getNumberGenerator()->getRandomInt(256)`. -/
def randomStep (i : Nat) (s : QByteArray × NumberGenerator) :
    Option (QByteArray × NumberGenerator) :=
  let r := s.2.getRandomInt 256
  some (s.1.setAt i (byteOfInt r.1), r.2)

/-- Constructor
`TokenImpl::TokenImpl(UnitContext* context, qreal energy, bool randomData)`,
returning the token and the generator state it leaves behind. -/
def createRandom (p : SimulationParameters) (g : NumberGenerator) (energy : ℚ)
    (randomData : Bool) : Option (TokenImpl × NumberGenerator) :=
  let t := create p 0
  if randomData then
    (forLoop randomStep p.tokenMemorySize.toNat 0 (t.memory, g)).map
      fun s => ({ memory := s.1, energy := energy }, s.2)
  else
    some ({ t with energy := energy }, g)

/-- Constructor `TokenImpl::TokenImpl(UnitContext* context, qreal energy,
QByteArray const& memory_)`: `_memory = memory_.left(tokenMemorySize)`. -/
def createFrom (p : SimulationParameters) (energy : ℚ) (memory_ : QByteArray) :
    TokenImpl :=
  { memory := QByteArray.left memory_ p.tokenMemorySize, energy := energy }

/-- The body of the loop of `duplicate`: `newToken->_memory[i] = _memory[i]`,
undefined when `i` is outside the source memory. -/
def copyStep (src : QByteArray) (i : Nat) (dst : QByteArray) : Option QByteArray :=
  (QByteArray.at? src i).map fun c => dst.setAt i c

/-- Method `TokenImpl::duplicate()`: the new token; the source (`this`) is `const` and
is not modified. -/
def duplicate (p : SimulationParameters) (t : TokenImpl) : Option TokenImpl :=
  let newToken := create p 0
  (forLoop (copyStep t.memory) p.tokenMemorySize.toNat 0 newToken.memory).map
    fun m => { memory := m, energy := t.energy }

/-- Method `TokenImpl::getTokenAccessNumber()`:
`_memory[0] % cellMaxTokenBranchNumber`, with the C++ remainder (truncated
toward zero, sign of the dividend); undefined on an empty memory or a zero
divisor. -/
def getTokenAccessNumber (charSigned : Bool) (p : SimulationParameters)
    (t : TokenImpl) : Option Int :=
  match QByteArray.at? t.memory 0 with
  | none => none
  | some b =>
    if p.cellMaxTokenBranchNumber = 0 then none
    else some (Int.tmod (charValue charSigned b) p.cellMaxTokenBranchNumber)

/-- Method `TokenImpl::setTokenAccessNumber(int i)`: `_memory[0] = i`, the low 8
bits of `i` stored at offset 0.  Assigning through `QByteRef` past the end
extends the array, so an empty memory becomes the single byte. -/
def setTokenAccessNumber (t : TokenImpl) (i : Int) : TokenImpl :=
  { t with memory :=
      if t.memory.isEmpty then [byteOfInt i] else t.memory.setAt 0 (byteOfInt i) }

/-- Method `TokenImpl::setEnergy(qreal energy)`. -/
def setEnergy (t : TokenImpl) (energy : ℚ) : TokenImpl :=
  { t with energy := energy }

/-- Method `TokenImpl::getEnergy()`. -/
def getEnergy (t : TokenImpl) : ℚ :=
  t.energy

/-- Method `TokenImpl::serializePrimitives(stream)`: `stream << _memory << _energy`. -/
def serializePrimitives (t : TokenImpl) (stream : QDataStream) : QDataStream :=
  stream ++ [StreamItem.bytes t.memory, StreamItem.real t.energy]

/-- Method `TokenImpl::deserializePrimitives(stream)`: `stream >> _memory >> _energy`,
then `_memory = _memory.left(memSize); _memory.resize(memSize)`.  The result is
the token and the rest of the stream; `none` when the stream does not hold a
byte array followed by a real at the read position. -/
def deserializePrimitives (p : SimulationParameters) (stream : QDataStream)
    (junk : Nat → Byte) : Option (TokenImpl × QDataStream) :=
  match stream with
  | StreamItem.bytes m :: StreamItem.real e :: rest =>
    let memSize := p.tokenMemorySize
    some ({ memory := QByteArray.resize (QByteArray.left m memSize) memSize junk,
            energy := e }, rest)
  | _ => none

end TokenImpl

/-! ## Changing the token memory size of a context -/

/-- Modelled from the spec: the state a parameter change acts on, namely the
parameters of a context and the tokens that exist in it.  The context classes
are not among the source files covered here. -/
structure UnitContext where
  parameters : SimulationParameters
  tokens : List TokenImpl

/-- Modelled from the spec: "truncated/zero-padded on parameter change", applied
to one memory buffer: the first `M` bytes are kept and zero bytes are appended
up to length `M`. -/
def fitMemory (M : Int) (m : QByteArray) : QByteArray :=
  QByteArray.left m M ++ List.replicate (M.toNat - m.length) (0 : Byte)

/-- Modelled from the spec: the parameter change that sets the global token
memory size of a context to `M`.  Its code is not among the source files
covered here (`TokenImpl` only reads the parameter); the spec says every
existing token is truncated or zero-padded to the new size. -/
def UnitContext.setTokenMemorySize (c : UnitContext) (M : Int) : UnitContext :=
  { parameters := { c.parameters with tokenMemorySize := M },
    tokens := c.tokens.map fun t => { t with memory := fitMemory M t.memory } }

/-! ## Encoding of `(timestep, settings)` (`EngineInterface/Parser.h`)

Only the declarations of `Parser` are covered; the bodies below follow the
spec's description of a symmetric encode/decode with named defaults. -/

namespace EngineInterface

/-- Modelled from the spec: what a node of the property tree holds, either the
timestep or the value of a parameter of type `V`.  The tree library is not among
the source files covered here. -/
inductive Data (V : Type) where
  | timestep (t : Nat)
  | parameter (v : V)
  deriving DecidableEq

/-- Modelled from the spec: a property tree as the list of its named nodes. -/
abbrev PTree (V : Type) := List (String × Data V)

/-- Modelled from the spec: reading the node with a given name, if present. -/
def PTree.get? {V : Type} (tree : PTree V) (node : String) : Option (Data V) :=
  match tree with
  | [] => none
  | e :: rest => if e.1 = node then some e.2 else PTree.get? rest node

/-- Modelled from the spec: writing a node; an existing node of that name is
overwritten, otherwise the node is added. -/
def PTree.put {V : Type} (tree : PTree V) (node : String) (d : Data V) : PTree V :=
  match tree with
  | [] => [(node, d)]
  | e :: rest => if e.1 = node then (node, d) :: rest else e :: PTree.put rest node d

/-- Modelled from the spec: one named parameter of `Settings` with its default.
The declaration of `Settings` is not among the source files covered here, so
the list of its parameters is an argument of the model. -/
structure ParameterSpec (V : Type) where
  node : String
  defaultValue : V

/-- Modelled from the spec: the layout of an encoded `(timestep, settings)`, the
node of the timestep and the parameters of `Settings` in declaration order. -/
structure Format (V : Type) where
  timestepNode : String
  parameters : List (ParameterSpec V)

/-- Modelled from the spec: a `Settings` value, one entry per parameter of the
format, in the same order. -/
abbrev Settings (V : Type) := List V

/-- Modelled from the spec: the settings in which every parameter has its
default value. -/
def Format.defaultSettings {V : Type} (f : Format V) : Settings V :=
  f.parameters.map fun sp => sp.defaultValue

namespace Parser

/-- The `Parser::Task` enumeration of `Parser.h`. -/
inductive Task where
  | Encode
  | Decode
  deriving DecidableEq

/-- Modelled from the spec: the body of the template
`Parser::encodeDecode(tree, parameter, defaultValue, node, task)`, of which only
the declaration is in `Parser.h`.  Encoding writes the parameter under its node;
decoding reads the node and applies the named default when it is missing (or
does not hold a value of the parameter's type, tested by `unwrap`).  The result
is the tree and the parameter after the call. -/
def encodeDecodeParameter {V T : Type} (wrap : T → Data V) (unwrap : Data V → Option T)
    (tree : PTree V) (parameter : T) (defaultValue : T) (node : String) (task : Task) :
    PTree V × T :=
  match task with
  | Task.Encode => (PTree.put tree node (wrap parameter), parameter)
  | Task.Decode => (tree, ((PTree.get? tree node).bind unwrap).getD defaultValue)

/-- Modelled from the spec: how a timestep is read back from a node. -/
def unwrapTimestep {V : Type} : Data V → Option Nat
  | Data.timestep t => some t
  | Data.parameter _ => none

/-- Modelled from the spec: how a parameter value is read back from a node. -/
def unwrapParameter {V : Type} : Data V → Option V
  | Data.timestep _ => none
  | Data.parameter v => some v

/-- Modelled from the spec: `encodeDecode` applied to the parameters of
`Settings`, one after the other. -/
def encodeDecodeSettings {V : Type} :
    List (ParameterSpec V) → PTree V → Settings V → Task → PTree V × Settings V
  | sp :: specs, tree, v :: vs, task =>
    let r := encodeDecodeParameter Data.parameter unwrapParameter tree v sp.defaultValue
      sp.node task
    let rs := encodeDecodeSettings specs r.1 vs task
    (rs.1, r.2 :: rs.2)
  | _, tree, _, _ => (tree, [])

/-- Modelled from the spec: the body of
`Parser::encodeDecode(tree, timestep, settings, task)`, of which only the
declaration is in `Parser.h`: the timestep (a `uint64_t`, default 0), then every
parameter. -/
def encodeDecode {V : Type} (f : Format V) (tree : PTree V) (timestep : Nat)
    (settings : Settings V) (task : Task) : PTree V × Nat × Settings V :=
  let r := encodeDecodeParameter Data.timestep unwrapTimestep tree timestep 0
    f.timestepNode task
  let rs := encodeDecodeSettings f.parameters r.1 settings task
  (rs.1, r.2, rs.2)

/-- Modelled from the spec: `Parser::encode(timestep, parameters)`, the tree
obtained by encoding into an empty tree. -/
def encode {V : Type} (f : Format V) (timestep : Nat) (parameters : Settings V) :
    PTree V :=
  (encodeDecode f [] timestep parameters Task.Encode).1

/-- Modelled from the spec: `Parser::decodeTimestepAndSettings(tree)`, decoding
into a timestep of 0 and default-constructed settings. -/
def decodeTimestepAndSettings {V : Type} (f : Format V) (tree : PTree V) :
    Nat × Settings V :=
  (encodeDecode f tree 0 f.defaultSettings Task.Decode).2

end Parser

end EngineInterface

/-! ## Building a simulation on a compartment grid (`Tests/CpuBenchmarks.cpp`)

The benchmarks only call the builder; its code is not among the source files
covered here. -/

/-- A pair of `int` coordinates, `IntVector2D`. -/
structure IntVector2D where
  x : Int
  y : Int
  deriving DecidableEq, Repr

/-- The second argument of `buildSimulationController` as the benchmarks build
it, `ModelCpuData(maxRunningThreads, gridSize)`. -/
structure ModelCpuData where
  maxRunningThreads : Int
  gridSize : IntVector2D
  deriving DecidableEq, Repr

/-- Modelled from the spec: the failures of building a simulation; only the
configuration error is described. -/
inductive BuildError where
  | ConfigurationError
  deriving DecidableEq, Repr

/-- Modelled from the spec: what a successful build yields, the grid and the
size of each compartment of the regular grid. -/
structure CompartmentGraph where
  gridSize : IntVector2D
  compartmentSize : IntVector2D
  deriving DecidableEq, Repr

/-- Modelled from the spec: `build(worldSize, compartmentGridDims)`, reached in
the benchmarks through `buildSimulationController`, whose code is not among the
source files covered here.  The world is divided into a regular grid; the
build fails with `ConfigurationError` unless the world size is divisible by
the grid dimensions in each axis. -/
def buildSimulationController (universeSize : IntVector2D) (data : ModelCpuData) :
    Except BuildError CompartmentGraph :=
  if universeSize.x % data.gridSize.x = 0 ∧ universeSize.y % data.gridSize.y = 0 then
    Except.ok { gridSize := data.gridSize,
                compartmentSize := { x := universeSize.x / data.gridSize.x,
                                     y := universeSize.y / data.gridSize.y } }
  else
    Except.error BuildError.ConfigurationError

/-- The universe size the benchmark fixture passes to its base class,
`IntegrationTestFramework({ 1008, 504 })`. -/
def CpuBenchmarks.universeSize : IntVector2D :=
  { x := 1008, y := 504 }

/-! ## The thread controller (`model/context/_impl/UnitThreadControllerImpl.h`) -/

/-- The data members of `UnitThreadControllerImpl`; threads and contexts are
named by numbers in place of pointers. -/
structure UnitThreadControllerImpl where
  maxRunningThreads : Int
  threads : List Nat
  threadsByContexts : List (Nat × Nat)
  deriving DecidableEq, Repr

/-- A freshly constructed `UnitThreadControllerImpl`: the members hold their
in-class initial values, `_maxRunningThreads = 1` and empty containers (the
constructor is declared in the header, its body is in a file not covered
here). -/
def UnitThreadControllerImpl.construct : UnitThreadControllerImpl :=
  { maxRunningThreads := 1, threads := [], threadsByContexts := [] }

/-! ## Neighbour directions of a compartment (`model/context/mapcompartment.h`) -/

/-- The enumeration `MapCompartment::RelativeLocation`. -/
inductive RelativeLocation where
  | UpperLeft
  | Upper
  | UpperRight
  | Left
  | Right
  | LowerLeft
  | Lower
  | LowerRight
  deriving DecidableEq, Repr

namespace RelativeLocation

/-- The enumerators in declaration order. -/
def all : List RelativeLocation :=
  [UpperLeft, Upper, UpperRight, Left, Right, LowerLeft, Lower, LowerRight]

/-- The integer value C++ gives each enumerator: its position in the
declaration, starting at 0. -/
def toUnderlying : RelativeLocation → Nat
  | UpperLeft => 0
  | Upper => 1
  | UpperRight => 2
  | Left => 3
  | Right => 4
  | LowerLeft => 5
  | Lower => 6
  | LowerRight => 7

/-- The grid offset `(dx, dy)` an enumerator is named after, with `x` growing to
the right and `y` growing downward. -/
def offsetByName : RelativeLocation → Int × Int
  | UpperLeft => (-1, -1)
  | Upper => (0, -1)
  | UpperRight => (1, -1)
  | Left => (-1, 0)
  | Right => (1, 0)
  | LowerLeft => (-1, 1)
  | Lower => (0, 1)
  | LowerRight => (1, 1)

end RelativeLocation

/-! ## Parsing the list of simulations (`Web/Parser.cpp`) -/

namespace Web

/-- A `QJsonValue`: one of the seven kinds Qt distinguishes.  A JSON number is a
`double`, taken as an exact number; an object is the list of its members. -/
inductive QJsonValue where
  | null
  | bool (b : Bool)
  | double (d : ℚ)
  | string (s : String)
  | array (items : List QJsonValue)
  | object (members : List (String × QJsonValue))
  | undefined

/-- A `QJsonDocument`: null when the text was not valid JSON, else an array or
an object. -/
inductive QJsonDocument where
  | null
  | array (items : List QJsonValue)
  | object (members : List (String × QJsonValue))

namespace QJsonValue

/-- Method `QJsonValue::isObject()`. -/
def isObject : QJsonValue → Bool
  | object _ => true
  | _ => false

/-- Method `QJsonValue::isArray()`. -/
def isArray : QJsonValue → Bool
  | array _ => true
  | _ => false

/-- Method `QJsonValue::toObject()`: the members, none when the value is not an
object. -/
def toObject : QJsonValue → List (String × QJsonValue)
  | object members => members
  | _ => []

/-- Method `QJsonValue::toArray()`: the items, none when the value is not an
array. -/
def toArray : QJsonValue → List QJsonValue
  | array items => items
  | _ => []

/-- Method `QJsonValue::toInt()`: the number when the value is a whole number
that fits an `int`, else the default 0. -/
def toInt : QJsonValue → Int
  | double d =>
    if d.den = 1 ∧ -2147483648 ≤ d.num ∧ d.num ≤ 2147483647 then d.num else 0
  | _ => 0

/-- Method `QJsonValue::toBool()`: the boolean, else the default `false`. -/
def toBool : QJsonValue → Bool
  | bool b => b
  | _ => false

/-- Method `QJsonValue::toString()` followed by `toStdString()`: the string,
else the empty string. -/
def toStdString : QJsonValue → String
  | string s => s
  | _ => ""

end QJsonValue

/-- Method `QJsonObject::value(key)`: the value of the member named `key`,
`Undefined` when there is none. -/
def QJsonObject.value (members : List (String × QJsonValue)) (key : String) : QJsonValue :=
  match members with
  | [] => QJsonValue.undefined
  | e :: rest => if e.1 = key then e.2 else QJsonObject.value rest key

/-- Method `QJsonArray::at(i)`: the item at index `i`, `Undefined` when `i` is
out of bounds. -/
def QJsonArray.at (items : List QJsonValue) (i : Nat) : QJsonValue :=
  (items.get? i).getD QJsonValue.undefined

/-- The structure `SimulationInfo`, with the fields `Parser::parse` fills. -/
structure SimulationInfo where
  simulationId : String
  isActive : Bool
  simulationName : String
  userName : String
  timestep : Int
  worldSize : IntVector2D
  deriving DecidableEq, Repr

/-- The exception `ParseErrorException` with its message. -/
structure ParseErrorException where
  message : String
  deriving DecidableEq, Repr

namespace Parser

/-- The body of the loop of `Parser::parse` up to `emplace_back`: the
`SimulationInfo` built from one array element, or the exception. -/
def parseSimulationInfo (simulationInfoValue : QJsonValue) :
    Except ParseErrorException SimulationInfo :=
  if !simulationInfoValue.isObject then
    Except.error { message := "Parser error." }
  else
    let simulationInfoObject := simulationInfoValue.toObject
    let simulationId := toString (QJsonObject.value simulationInfoObject "id").toInt
    let isActive := (QJsonObject.value simulationInfoObject "isActive").toBool
    let simulationName :=
      (QJsonObject.value simulationInfoObject "simulationName").toStdString
    let userName := (QJsonObject.value simulationInfoObject "userName").toStdString
    let timestep := (QJsonObject.value simulationInfoObject "timestep").toInt
    let worldSizeValue := QJsonObject.value simulationInfoObject "worldSize"
    if !worldSizeValue.isArray then
      Except.error { message := "Parser error." }
    else
      let worldSizeArray := worldSizeValue.toArray
      Except.ok
        { simulationId := simulationId,
          isActive := isActive,
          simulationName := simulationName,
          userName := userName,
          timestep := timestep,
          worldSize := { x := (QJsonArray.at worldSizeArray 0).toInt,
                         y := (QJsonArray.at worldSizeArray 1).toInt } }

/-- The loop of `Parser::parse` over the remaining elements of the array, with
the `result` vector built so far; an exception discards it. -/
def parseLoop : List QJsonValue → List SimulationInfo →
    Except ParseErrorException (List SimulationInfo)
  | [], result => Except.ok result
  | simulationInfoValue :: rest, result =>
    match parseSimulationInfo simulationInfoValue with
    | Except.error e => Except.error e
    | Except.ok simulationInfo => parseLoop rest (result ++ [simulationInfo])

/-- The function `Parser::parse(raw)` of `Web/Parser.cpp`.  The JSON reader
`QJsonDocument::fromJson` belongs to Qt and is an argument. -/
def parse (fromJson : QByteArray → QJsonDocument) (raw : QByteArray) :
    Except ParseErrorException (List SimulationInfo) :=
  match fromJson raw with
  | QJsonDocument.object jsonObject =>
    match jsonObject with
    | [(_, dataValue)] =>
      if !dataValue.isArray then
        Except.error { message := "Parser error." }
      else
        parseLoop dataValue.toArray []
    | _ => Except.error { message := "Parser error." }
  | _ => Except.error { message := "Parser error." }

/-- An array element as the error claim wants it: an object with an array-valued
`worldSize`. -/
def ElementWellFormed (v : QJsonValue) : Prop :=
  ∃ members worldSize, v = QJsonValue.object members ∧
    QJsonObject.value members "worldSize" = QJsonValue.array worldSize

/-- The inputs the error claim describes as well formed: a JSON document whose
root is an object with exactly one key, whose value is an array in which every
element is an object with an array-valued `worldSize`. -/
def WellFormed (doc : QJsonDocument) : Prop :=
  ∃ key items, doc = QJsonDocument.object [(key, QJsonValue.array items)] ∧
    ∀ v ∈ items, ElementWellFormed v

end Parser

end Web

/-! ## The web controller (`Web/WebControllerImpl.cpp`) -/

namespace Web

/-- The enumeration `RequestType`, with the three enumerators the controller
uses; the handler an `HttpClient` reports back is the request type cast to
`int`. -/
inductive RequestType where
  | SimulationInfo
  | Connect
  | Disconnect
  deriving DecidableEq, Repr

/-- What the controller sends out: a call of `HttpClient::get` or
`HttpClient::post`, or one of the signals it emits. -/
inductive Signal where
  | httpGet (url : String) (handler : RequestType)
  | httpPost (url : String) (handler : RequestType) (keyValues : List (String × String))
  | simulationInfosReceived (simulationInfos : List SimulationInfo)
  | error (message : String)
  | connectToSimulationReceived (token : Option QByteArray)
  deriving DecidableEq

/-- The state of `WebControllerImpl`: the set `_requesting` of request types
with a request in flight. -/
structure WebControllerImpl where
  requesting : Finset RequestType
  deriving DecidableEq

namespace WebControllerImpl

/-- The constant `host`. -/
def host : String := "http://localhost/api/"

/-- The constant `apiGetSimulation`. -/
def apiGetSimulation : String := "getsimulation"

/-- The constant `apiConnect`. -/
def apiConnect : String := "connect"

/-- The constant `apiDisconnect`. -/
def apiDisconnect : String := "disconnect"

/-- The constructor `WebControllerImpl::WebControllerImpl()`: no request is in
flight. -/
def construct : WebControllerImpl :=
  { requesting := ∅ }

/-- Method `WebControllerImpl::get(apiMethodName, requestType)`: the state after
the call and what was sent. -/
def get (c : WebControllerImpl) (apiMethodName : String) (requestType : RequestType) :
    WebControllerImpl × List Signal :=
  if requestType ∈ c.requesting then
    (c, [])
  else
    ({ requesting := insert requestType c.requesting },
     [Signal.httpGet (host ++ apiMethodName) requestType])

/-- Method `WebControllerImpl::post(apiMethodName, requestType, keyValues)`: the
state after the call and what was sent; the query string is kept as its
key-value pairs. -/
def post (c : WebControllerImpl) (apiMethodName : String) (requestType : RequestType)
    (keyValues : List (String × String)) : WebControllerImpl × List Signal :=
  if requestType ∈ c.requesting then
    (c, [])
  else
    ({ requesting := insert requestType c.requesting },
     [Signal.httpPost (host ++ apiMethodName) requestType keyValues])

/-- Method `WebControllerImpl::requestSimulationInfos()`. -/
def requestSimulationInfos (c : WebControllerImpl) : WebControllerImpl × List Signal :=
  get c apiGetSimulation RequestType.SimulationInfo

/-- Method `WebControllerImpl::requestConnectToSimulation(simulationId,
password)`. -/
def requestConnectToSimulation (c : WebControllerImpl) (simulationId password : String) :
    WebControllerImpl × List Signal :=
  post c apiConnect RequestType.Connect
    [("simulationId", simulationId), ("password", password)]

/-- Method `WebControllerImpl::requestDisconnect(simulationId, token)`. -/
def requestDisconnect (c : WebControllerImpl) (simulationId token : String) :
    WebControllerImpl × List Signal :=
  post c apiDisconnect RequestType.Disconnect
    [("simulationId", simulationId), ("token", token)]

/-- The slot `WebControllerImpl::dataReceived(handler, data)`, connected to
`HttpClient::dataReceived`: the request type is erased from the set, then the
data is handled by type. -/
def dataReceived (fromJson : QByteArray → QJsonDocument) (c : WebControllerImpl)
    (handler : RequestType) (data : QByteArray) : WebControllerImpl × List Signal :=
  let c1 : WebControllerImpl := { requesting := c.requesting.erase handler }
  match handler with
  | RequestType.SimulationInfo =>
    match Parser.parse fromJson data with
    | Except.ok simulationInfos => (c1, [Signal.simulationInfosReceived simulationInfos])
    | Except.error exception => (c1, [Signal.error exception.message])
  | RequestType.Connect =>
    (c1, [Signal.connectToSimulationReceived (if data.isEmpty then none else some data)])
  | RequestType.Disconnect => (c1, [])

/-- The connection `connect(_http, &HttpClient::error, this, &WebController::error)`
made by the constructor: an error reported by the `HttpClient` is passed on as
the controller's `error` signal; no member of the controller is touched. -/
def httpError (c : WebControllerImpl) (message : String) : WebControllerImpl × List Signal :=
  (c, [Signal.error message])

end WebControllerImpl

/-- What can happen to a `WebControllerImpl`: a call of `get` or `post`, or a
signal of its `HttpClient`. -/
inductive Event where
  | get (apiMethodName : String) (requestType : RequestType)
  | post (apiMethodName : String) (requestType : RequestType)
      (keyValues : List (String × String))
  | dataReceived (handler : RequestType) (data : QByteArray)
  | httpError (message : String)

/-- The effect of one event on the controller. -/
def WebControllerImpl.step (fromJson : QByteArray → QJsonDocument) (c : WebControllerImpl) :
    Event → WebControllerImpl × List Signal
  | Event.get apiMethodName requestType => c.get apiMethodName requestType
  | Event.post apiMethodName requestType keyValues =>
    c.post apiMethodName requestType keyValues
  | Event.dataReceived handler data => WebControllerImpl.dataReceived fromJson c handler data
  | Event.httpError message => c.httpError message

/-- The effect of a sequence of events: the final state and everything sent, in
order. -/
def WebControllerImpl.run (fromJson : QByteArray → QJsonDocument) :
    List Event → WebControllerImpl → WebControllerImpl × List Signal
  | [], c => (c, [])
  | e :: rest, c =>
    let r := WebControllerImpl.step fromJson c e
    let rs := WebControllerImpl.run fromJson rest r.1
    (rs.1, r.2 ++ rs.2)

/-- Whether a signal is an HTTP request sent for the given request type. -/
def Signal.isRequestOf (t : RequestType) : Signal → Bool
  | Signal.httpGet _ handler => decide (handler = t)
  | Signal.httpPost _ handler _ => decide (handler = t)
  | _ => false

/-- Whether an event is the arrival of data for the given request type. -/
def Event.isDataReceivedOf (t : RequestType) : Event → Bool
  | Event.dataReceived handler _ => decide (handler = t)
  | _ => false

end Web

/-! ## The autosave controller (`Gui/AutosaveController.cpp`) -/

namespace Gui

/-- The constant `MinutesForAutosave`. -/
def MinutesForAutosave : Int := 40

/-- The members of `_AutosaveController` that `process` uses: `_on` and
`_alreadySaved` (`on` is a reserved word, hence `on_`). -/
structure AutosaveController where
  on_ : Bool
  alreadySaved : Bool
  deriving DecidableEq, Repr

/-- What `process` triggers. -/
inductive AutosaveEffect where
  | printOverlayMessage (message : String)
  | delayedSave
  deriving DecidableEq, Repr

namespace AutosaveController

/-- The constructor `_AutosaveController::_AutosaveController`: `_on` is read
from the global settings (`active`, default `true`); `_alreadySaved` has its
initial value `false`.  The start time is the origin of the minutes passed to
`process`. -/
def construct (active : Bool) : AutosaveController :=
  { on_ := active, alreadySaved := false }

/-- Method `_AutosaveController::setOn(value)`. -/
def setOn (c : AutosaveController) (value : Bool) : AutosaveController :=
  { c with on_ := value }

/-- Method `_AutosaveController::isOn()`. -/
def isOn (c : AutosaveController) : Bool :=
  c.on_

/-- Method `_AutosaveController::process()`, called when `durationSinceStart`
whole minutes have passed since the start: the state after the call and what
was triggered. -/
def process (c : AutosaveController) (durationSinceStart : Int) :
    AutosaveController × List AutosaveEffect :=
  if !c.on_ then
    (c, [])
  else
    let r : AutosaveController × List AutosaveEffect :=
      if durationSinceStart > 0 ∧ Int.tmod durationSinceStart MinutesForAutosave = 0
          ∧ c.alreadySaved = false then
        ({ c with alreadySaved := true },
         [AutosaveEffect.printOverlayMessage "Auto saving ...", AutosaveEffect.delayedSave])
      else
        (c, [])
    if durationSinceStart > 0 ∧ Int.tmod durationSinceStart MinutesForAutosave = 1
        ∧ r.1.alreadySaved = true then
      ({ r.1 with alreadySaved := false }, r.2)
    else
      r

end AutosaveController

/-- A call made on the autosave controller: `process()` at a given minute since
the start, or `setOn(value)`. -/
inductive AutosaveCall where
  | process (minute : Int)
  | setOn (value : Bool)
  deriving DecidableEq, Repr

/-- The controller after a sequence of calls. -/
def AutosaveController.stateAfter : List AutosaveCall → AutosaveController → AutosaveController
  | [], c => c
  | AutosaveCall.process minute :: rest, c =>
    AutosaveController.stateAfter rest (c.process minute).1
  | AutosaveCall.setOn value :: rest, c => AutosaveController.stateAfter rest (c.setOn value)

/-- The minutes at which a sequence of calls schedules a save, in order. -/
def AutosaveController.savesOf : List AutosaveCall → AutosaveController → List Int
  | [], _ => []
  | AutosaveCall.process minute :: rest, c =>
    let r := c.process minute
    (if AutosaveEffect.delayedSave ∈ r.2 then [minute] else []) ++
      AutosaveController.savesOf rest r.1
  | AutosaveCall.setOn value :: rest, c => AutosaveController.savesOf rest (c.setOn value)

end Gui

/-! ## The menu bar and the hotkeys (`Gui/MainWindow.cpp`) -/

namespace Gui

/-- What `processMenubar` reads from the other components: whether the
simulation runs, a user is logged in, the edit mode is active, what the editor
reports as possible, and the window mode. -/
structure AppState where
  simulationRunning : Bool
  loggedIn : Bool
  editMode : Bool
  objectInspectionPossible : Bool
  genomeInspectionPossible : Bool
  inspectionWindowsActive : Bool
  copyingPossible : Bool
  pastingPossible : Bool
  desktopMode : Bool
  deriving DecidableEq, Repr

/-- The keys `processMenubar` tests with `ImGui::IsKeyPressed` (`K1` to `K8` are
the digits). -/
inductive Key where
  | N
  | O
  | S
  | Space
  | W
  | L
  | T
  | D
  | Q
  | J
  | K1
  | K2
  | K3
  | K4
  | K5
  | K6
  | K7
  | K8
  | E
  | M
  | B
  | R
  | A
  | F
  | Escape
  | C
  | V
  | Delete
  | F7
  | K
  | U
  | I
  | H
  | P
  | G
  deriving DecidableEq, Repr

/-- The keyboard state of one frame: `io.WantCaptureKeyboard`, `io.KeyCtrl`,
`io.KeyAlt` and the keys pressed. -/
structure KeyboardInput where
  wantCaptureKeyboard : Bool
  keyCtrl : Bool
  keyAlt : Bool
  pressed : List Key
  deriving DecidableEq, Repr

/-- The test `ImGui::IsKeyPressed(key)`. -/
def KeyboardInput.isKeyPressed (input : KeyboardInput) (key : Key) : Bool :=
  decide (key ∈ input.pressed)

/-- The calls `processMenubar` makes on a menu click or a hotkey, named after the
call (a `toggle` is `setOn(!isOn())`, `logout` is `logout()` followed by the
refresh of the browser). -/
inductive Action where
  | openNewSimulationDialog
  | onOpenSimulation
  | onSaveSimulation
  | onPauseSimulation
  | onRunSimulation
  | toggleBrowserWindow
  | openLoginDialog
  | logout
  | openUploadSimulationDialog
  | openUploadGenomeDialog
  | openDeleteUserDialog
  | toggleTemporalControlWindow
  | toggleSpatialControlWindow
  | toggleStatisticsWindow
  | toggleSimulationParametersWindow
  | toggleRadiationSourcesWindow
  | toggleShaderWindow
  | toggleAutosaveWindow
  | toggleLogWindow
  | toggleEditMode
  | toggleSelectionWindow
  | togglePatternEditorWindow
  | toggleGenomeEditorWindow
  | toggleCreatorWindow
  | toggleMultiplierWindow
  | onInspectSelectedObjects
  | onInspectSelectedGenomes
  | onCloseAllInspectorWindows
  | onCopy
  | onPaste
  | onDelete
  | openGpuSettingsDialog
  | openDisplaySettingsDialog
  | setWindowedMode
  | setDesktopMode
  | openNetworkSettingsDialog
  | toggleOverlay
  | toggleRenderUi
  | toggleRenderSimulation
  | showMassOperationsDialog
  | showPatternAnalysisDialog
  | showImageToPatternDialog
  deriving DecidableEq, Repr

/-- The menu items of `processMenubar` that are given a keyboard shortcut. -/
inductive MenuItem where
  | New
  | Open
  | Save
  | Run
  | Pause
  | Browser
  | Login
  | Logout
  | UploadSimulation
  | UploadGenome
  | DeleteUser
  | TemporalControl
  | SpatialControl
  | Statistics
  | SimulationParameters
  | RadiationSources
  | ShaderParameters
  | Autosave
  | Log
  | Activate
  | Selection
  | Creator
  | PatternEditor
  | GenomeEditor
  | Multiplier
  | InspectObjects
  | InspectPrincipalGenome
  | CloseInspections
  | Copy
  | Paste
  | InformationOverlay
  | RenderUi
  | RenderSimulation
  | MassOperations
  | PatternAnalysis
  | ImageConverter
  | CudaSettings
  | DisplaySettings
  | NetworkSettings
  deriving DecidableEq, Repr

/-- The call a menu item makes when it is clicked. -/
def menuAction : MenuItem → Action
  | MenuItem.New => Action.openNewSimulationDialog
  | MenuItem.Open => Action.onOpenSimulation
  | MenuItem.Save => Action.onSaveSimulation
  | MenuItem.Run => Action.onRunSimulation
  | MenuItem.Pause => Action.onPauseSimulation
  | MenuItem.Browser => Action.toggleBrowserWindow
  | MenuItem.Login => Action.openLoginDialog
  | MenuItem.Logout => Action.logout
  | MenuItem.UploadSimulation => Action.openUploadSimulationDialog
  | MenuItem.UploadGenome => Action.openUploadGenomeDialog
  | MenuItem.DeleteUser => Action.openDeleteUserDialog
  | MenuItem.TemporalControl => Action.toggleTemporalControlWindow
  | MenuItem.SpatialControl => Action.toggleSpatialControlWindow
  | MenuItem.Statistics => Action.toggleStatisticsWindow
  | MenuItem.SimulationParameters => Action.toggleSimulationParametersWindow
  | MenuItem.RadiationSources => Action.toggleRadiationSourcesWindow
  | MenuItem.ShaderParameters => Action.toggleShaderWindow
  | MenuItem.Autosave => Action.toggleAutosaveWindow
  | MenuItem.Log => Action.toggleLogWindow
  | MenuItem.Activate => Action.toggleEditMode
  | MenuItem.Selection => Action.toggleSelectionWindow
  | MenuItem.Creator => Action.toggleCreatorWindow
  | MenuItem.PatternEditor => Action.togglePatternEditorWindow
  | MenuItem.GenomeEditor => Action.toggleGenomeEditorWindow
  | MenuItem.Multiplier => Action.toggleMultiplierWindow
  | MenuItem.InspectObjects => Action.onInspectSelectedObjects
  | MenuItem.InspectPrincipalGenome => Action.onInspectSelectedGenomes
  | MenuItem.CloseInspections => Action.onCloseAllInspectorWindows
  | MenuItem.Copy => Action.onCopy
  | MenuItem.Paste => Action.onPaste
  | MenuItem.InformationOverlay => Action.toggleOverlay
  | MenuItem.RenderUi => Action.toggleRenderUi
  | MenuItem.RenderSimulation => Action.toggleRenderSimulation
  | MenuItem.MassOperations => Action.showMassOperationsDialog
  | MenuItem.PatternAnalysis => Action.showPatternAnalysisDialog
  | MenuItem.ImageConverter => Action.showImageToPatternDialog
  | MenuItem.CudaSettings => Action.openGpuSettingsDialog
  | MenuItem.DisplaySettings => Action.openDisplaySettingsDialog
  | MenuItem.NetworkSettings => Action.openNetworkSettingsDialog

/-- Whether a menu item is enabled: the negation of the condition of the
`ImGui::BeginDisabled` around it, `true` for an item outside such a block. -/
def menuEnabled (s : AppState) : MenuItem → Bool
  | MenuItem.Run => !s.simulationRunning
  | MenuItem.Pause => s.simulationRunning
  | MenuItem.Login => !s.loggedIn
  | MenuItem.Logout => s.loggedIn
  | MenuItem.UploadSimulation => s.loggedIn
  | MenuItem.UploadGenome => s.loggedIn
  | MenuItem.DeleteUser => s.loggedIn
  | MenuItem.Selection => s.editMode
  | MenuItem.Creator => s.editMode
  | MenuItem.PatternEditor => s.editMode
  | MenuItem.GenomeEditor => s.editMode
  | MenuItem.Multiplier => s.editMode
  | MenuItem.InspectObjects => s.editMode && s.objectInspectionPossible
  | MenuItem.InspectPrincipalGenome => s.editMode && s.genomeInspectionPossible
  | MenuItem.CloseInspections => s.editMode && s.inspectionWindowsActive
  | MenuItem.Copy => s.editMode && s.copyingPossible
  | MenuItem.Paste => s.editMode && s.pastingPossible
  | _ => true

/-- The progress of the hotkey section within one frame: the application state
as the calls made so far have left it, and those calls in order. -/
structure HotkeyRun where
  state : AppState
  triggered : List Action
  deriving DecidableEq, Repr

/-- One call made by the hotkey section; `effect` is what the call does to the
application state (the called components are outside `MainWindow.cpp`). -/
def HotkeyRun.call (f : HotkeyRun) (effect : Action → AppState → AppState) (a : Action) :
    HotkeyRun :=
  { state := effect a f.state, triggered := f.triggered ++ [a] }

/-- The hotkey section of `_MainWindow::processMenubar`: the tests on the keyboard
in source order, each made on the state the earlier calls have left. -/
def processHotkeys (effect : Action → AppState → AppState) (input : KeyboardInput)
    (s : AppState) : HotkeyRun :=
  let f : HotkeyRun := { state := s, triggered := [] }
  if input.wantCaptureKeyboard then f
  else
    let f := if input.keyCtrl && input.isKeyPressed Key.N then
        f.call effect Action.openNewSimulationDialog else f
    let f := if input.keyCtrl && input.isKeyPressed Key.O then
        f.call effect Action.onOpenSimulation else f
    let f := if input.keyCtrl && input.isKeyPressed Key.S then
        f.call effect Action.onSaveSimulation else f
    let f := if input.isKeyPressed Key.Space then
        (if f.state.simulationRunning then f.call effect Action.onPauseSimulation
         else f.call effect Action.onRunSimulation)
      else f
    let f := if input.keyAlt && input.isKeyPressed Key.W then
        f.call effect Action.toggleBrowserWindow else f
    let f := if input.keyAlt && input.isKeyPressed Key.L && !f.state.loggedIn then
        f.call effect Action.openLoginDialog else f
    let f := if input.keyAlt && input.isKeyPressed Key.T then
        f.call effect Action.logout else f
    let f := if input.keyAlt && input.isKeyPressed Key.D && f.state.loggedIn then
        f.call effect Action.openUploadSimulationDialog else f
    let f := if input.keyAlt && input.isKeyPressed Key.Q && f.state.loggedIn then
        f.call effect Action.openUploadGenomeDialog else f
    let f := if input.keyAlt && input.isKeyPressed Key.J && f.state.loggedIn then
        f.call effect Action.openDeleteUserDialog else f
    let f := if input.keyAlt && input.isKeyPressed Key.K1 then
        f.call effect Action.toggleTemporalControlWindow else f
    let f := if input.keyAlt && input.isKeyPressed Key.K2 then
        f.call effect Action.toggleSpatialControlWindow else f
    let f := if input.keyAlt && input.isKeyPressed Key.K3 then
        f.call effect Action.toggleStatisticsWindow else f
    let f := if input.keyAlt && input.isKeyPressed Key.K4 then
        f.call effect Action.toggleSimulationParametersWindow else f
    let f := if input.keyAlt && input.isKeyPressed Key.K5 then
        f.call effect Action.toggleRadiationSourcesWindow else f
    let f := if input.keyAlt && input.isKeyPressed Key.K6 then
        f.call effect Action.toggleShaderWindow else f
    let f := if input.keyAlt && input.isKeyPressed Key.K7 then
        f.call effect Action.toggleAutosaveWindow else f
    let f := if input.keyAlt && input.isKeyPressed Key.K8 then
        f.call effect Action.toggleLogWindow else f
    let f := if input.keyAlt && input.isKeyPressed Key.E then
        f.call effect Action.toggleEditMode else f
    let f := if input.keyAlt && input.isKeyPressed Key.S then
        f.call effect Action.toggleSelectionWindow else f
    let f := if input.keyAlt && input.isKeyPressed Key.M then
        f.call effect Action.togglePatternEditorWindow else f
    let f := if input.keyAlt && input.isKeyPressed Key.B then
        f.call effect Action.toggleGenomeEditorWindow else f
    let f := if input.keyAlt && input.isKeyPressed Key.R then
        f.call effect Action.toggleCreatorWindow else f
    let f := if input.keyAlt && input.isKeyPressed Key.A then
        f.call effect Action.toggleMultiplierWindow else f
    let f := if input.keyAlt && input.isKeyPressed Key.N && f.state.objectInspectionPossible then
        f.call effect Action.onInspectSelectedObjects else f
    let f := if input.keyAlt && input.isKeyPressed Key.F && f.state.genomeInspectionPossible then
        f.call effect Action.onInspectSelectedGenomes else f
    let f := if input.isKeyPressed Key.Escape then
        f.call effect Action.onCloseAllInspectorWindows else f
    let f := if input.keyCtrl && input.isKeyPressed Key.C && f.state.copyingPossible then
        f.call effect Action.onCopy else f
    let f := if input.keyCtrl && input.isKeyPressed Key.V && f.state.pastingPossible then
        f.call effect Action.onPaste else f
    let f := if input.isKeyPressed Key.Delete then
        f.call effect Action.onDelete else f
    let f := if input.keyAlt && input.isKeyPressed Key.C then
        f.call effect Action.openGpuSettingsDialog else f
    let f := if input.keyAlt && input.isKeyPressed Key.V then
        f.call effect Action.openDisplaySettingsDialog else f
    let f := if input.isKeyPressed Key.F7 then
        (if f.state.desktopMode then f.call effect Action.setWindowedMode
         else f.call effect Action.setDesktopMode)
      else f
    let f := if input.keyAlt && input.isKeyPressed Key.K then
        f.call effect Action.openNetworkSettingsDialog else f
    let f := if input.keyAlt && input.isKeyPressed Key.O then
        f.call effect Action.toggleOverlay else f
    let f := if input.keyAlt && input.isKeyPressed Key.U then
        f.call effect Action.toggleRenderUi else f
    let f := if input.keyAlt && input.isKeyPressed Key.I then
        f.call effect Action.toggleRenderSimulation else f
    let f := if input.keyAlt && input.isKeyPressed Key.H then
        f.call effect Action.showMassOperationsDialog else f
    let f := if input.keyAlt && input.isKeyPressed Key.P then
        f.call effect Action.showPatternAnalysisDialog else f
    let f := if input.keyAlt && input.isKeyPressed Key.G then
        f.call effect Action.showImageToPatternDialog else f
    f

end Gui

/-! ## Lemmas on the byte-array operations -/

theorem QByteArray.length_filled (size : Int) (ch : Byte) :
    (QByteArray.filled size ch).length = size.toNat := by
  simp [QByteArray.filled]

theorem QByteArray.length_left (a : QByteArray) (len : Int) :
    (QByteArray.left a len).length = min len.toNat a.length := by
  simp [QByteArray.left]

theorem QByteArray.length_resize (a : QByteArray) (size : Int) (junk : Nat → Byte) :
    (QByteArray.resize a size junk).length = size.toNat := by
  unfold QByteArray.resize
  split
  · simp [List.length_take]; omega
  · simp; omega

theorem QByteArray.at_natCast (a : QByteArray) (i : Nat) :
    QByteArray.at? a (i : Int) = a.get? i := by
  simp [QByteArray.at?]

theorem charValue_unsigned (b : Byte) : charValue false b = (b.val : Int) := by
  simp [charValue]

theorem charValue_of_lt (charSigned : Bool) (b : Byte) (h : b.val < 128) :
    charValue charSigned b = (b.val : Int) := by
  unfold charValue
  have : ¬ (128 ≤ b.val) := by omega
  simp [this]

/-! ## Lemmas on the loops of `TokenImpl` -/

open TokenImpl

theorem take_succ_set {α : Type} (m : List α) (i : Nat) (x : α) (h : i < m.length) :
    (m.set i x).take (i + 1) = m.take i ++ [x] := by
  induction m generalizing i with
  | nil => simp at h
  | cons a m ih =>
    cases i with
    | zero => simp
    | succ i =>
      simp only [List.set_cons_succ, List.take_succ_cons, List.cons_append, List.cons.injEq, true_and]
      exact ih i (by simpa using h)

theorem drop_succ_set {α : Type} (m : List α) (i k : Nat) (x : α) :
    (m.set i x).drop (i + 1 + k) = m.drop (i + 1 + k) := by
  induction m generalizing i with
  | nil => simp
  | cons a m ih =>
    cases i with
    | zero => simp [Nat.add_comm 1 k]
    | succ i =>
      have : i + 1 + 1 + k = (i + 1 + k) + 1 := by omega
      rw [this]
      simp only [List.set_cons_succ, List.drop_succ_cons]
      exact ih i

theorem forLoop_randomStep (k i : Nat) (m : QByteArray) (g : NumberGenerator)
    (h : i + k ≤ m.length) :
    forLoop randomStep k i (m, g) =
      some (m.take i ++ (List.range k).map (fun j => byteOfInt (g.pending (g.calls + j)))
              ++ m.drop (i + k),
            { pending := g.pending, calls := g.calls + k }) := by
  induction k generalizing i m g with
  | zero => simp [forLoop]
  | succ k ih =>
    have hi : i < m.length := by omega
    simp only [forLoop, randomStep, NumberGenerator.getRandomInt, QByteArray.setAt,
      Option.some_bind]
    rw [ih (i + 1) _ _ (by simp; omega)]
    simp only [take_succ_set m i _ hi, drop_succ_set, List.range_succ_eq_map, List.map_cons,
      List.map_map, List.append_assoc, List.singleton_append, Nat.add_zero]
    congr 2
    · congr 2
      · congr 1
        apply List.map_congr_left
        intro j _
        simp [Nat.add_assoc, Nat.add_comm 1 j]
      · congr 1; omega
    · simp; omega

theorem forLoop_copyStep (src : QByteArray) (k i : Nat) (dst : QByteArray)
    (hs : i + k ≤ src.length) (hd : i + k ≤ dst.length) :
    forLoop (copyStep src) k i dst =
      some (dst.take i ++ (src.drop i).take k ++ dst.drop (i + k)) := by
  induction k generalizing i dst with
  | zero => simp [forLoop]
  | succ k ih =>
    have hi : i < src.length := by omega
    have hi2 : i < dst.length := by omega
    simp only [forLoop, copyStep, QByteArray.at_natCast, QByteArray.setAt]
    rw [List.get?_eq_get hi]
    simp only [Option.map_some', Option.some_bind]
    rw [ih (i + 1) _ (by omega) (by simp; omega)]
    simp only [take_succ_set dst i _ hi2, drop_succ_set, List.append_assoc,
      List.singleton_append]
    congr 2
    have e : i + (k + 1) = i + 1 + k := by omega
    rw [List.drop_eq_getElem_cons hi, e]
    simp only [List.take_succ_cons, List.cons_append]
    rfl
/-- Closed form of the `randomData` constructor: byte `k` is the low 8 bits of the
`k`-th value drawn, and the generator has advanced by the memory size. -/
theorem createRandom_true (p : SimulationParameters) (g : NumberGenerator) (energy : ℚ) :
    createRandom p g energy true =
      some ({ memory := (List.range p.tokenMemorySize.toNat).map
                fun k => byteOfInt (g.pending (g.calls + k)),
              energy := energy },
            { pending := g.pending, calls := g.calls + p.tokenMemorySize.toNat }) := by
  simp only [createRandom, create, if_true]
  rw [forLoop_randomStep _ 0 _ g (by simp [QByteArray.length_filled])]
  simp [QByteArray.filled]

/-- Closed form of `duplicate` on a token whose memory is at least as long as the
configured size: the first `tokenMemorySize` bytes and the energy are copied. -/
theorem duplicate_of_le (p : SimulationParameters) (t : TokenImpl)
    (h : p.tokenMemorySize ≤ (t.memory.length : Int)) :
    duplicate p t =
      some { memory := t.memory.take p.tokenMemorySize.toNat, energy := t.energy } := by
  simp only [duplicate, create]
  rw [forLoop_copyStep t.memory _ 0 _ (by omega) (by simp [QByteArray.length_filled])]
  simp [QByteArray.filled]

/-- Closed form of `duplicate` on a token whose memory has the configured size. -/
theorem duplicate_eq (p : SimulationParameters) (t : TokenImpl)
    (h : (t.memory.length : Int) = p.tokenMemorySize) :
    duplicate p t = some { memory := t.memory, energy := t.energy } := by
  have hn : p.tokenMemorySize.toNat = t.memory.length := by omega
  rw [duplicate_of_le p t (by omega), hn, List.take_length]

/-- The one-argument constructor gives memory of the configured size. -/
theorem create_memory_length (p : SimulationParameters) (energy0 : ℚ)
    (hM : 0 ≤ p.tokenMemorySize) :
    ((create p energy0).memory.length : Int) = p.tokenMemorySize := by
  simp only [create, QByteArray.length_filled]
  omega

/-- The `randomData` constructor gives memory of the configured size. -/
theorem createRandom_memory_length (p : SimulationParameters) (g : NumberGenerator)
    (energy : ℚ) (randomData : Bool) (hM : 0 ≤ p.tokenMemorySize) :
    ∃ t g', createRandom p g energy randomData = some (t, g') ∧
      (t.memory.length : Int) = p.tokenMemorySize := by
  cases randomData with
  | true =>
    refine ⟨_, _, createRandom_true p g energy, ?_⟩
    simp only [List.length_map, List.length_range]
    omega
  | false =>
    refine ⟨_, _, rfl, ?_⟩
    simp only [create, QByteArray.length_filled]
    omega

/-- The constructor taking a buffer keeps at most the configured number of bytes
and never extends a shorter buffer. -/
theorem createFrom_memory_length (p : SimulationParameters) (energy : ℚ)
    (memory_ : QByteArray) :
    (createFrom p energy memory_).memory.length =
      min p.tokenMemorySize.toNat memory_.length := by
  simp [createFrom, QByteArray.length_left]

/-- With an unsigned `char`, or with a byte below 128, the access number lies in
`0 <= r < n`. -/
theorem getTokenAccessNumber_range (charSigned : Bool) (p : SimulationParameters)
    (b : Byte) (rest : QByteArray) (energy : ℚ)
    (hn : 0 < p.cellMaxTokenBranchNumber) (hb : charSigned = false ∨ b.val < 128) :
    ∃ r, getTokenAccessNumber charSigned p { memory := b :: rest, energy := energy } = some r ∧
      0 ≤ r ∧ r < p.cellMaxTokenBranchNumber := by
  have hc : charValue charSigned b = (b.val : Int) := by
    rcases hb with h | h
    · subst h; exact charValue_unsigned b
    · exact charValue_of_lt charSigned b h
  have hne : p.cellMaxTokenBranchNumber ≠ 0 := by omega
  refine ⟨Int.tmod (charValue charSigned b) p.cellMaxTokenBranchNumber, ?_, ?_, ?_⟩
  · simp [getTokenAccessNumber, QByteArray.at?, hne]
  · rw [hc]; exact Int.tmod_nonneg _ (by omega)
  · exact Int.tmod_lt_of_pos _ hn

/-! ## The claims on `TokenImpl` -/

/-- C1: on the failing input, a token whose byte 0 is 255 with 6 branches and a
signed `char`, `getTokenAccessNumber` returns -1, which is not in `0 <= r < 6`. -/
theorem getTokenAccessNumber_signed_char_negative :
    getTokenAccessNumber true { tokenMemorySize := 1, cellMaxTokenBranchNumber := 6 }
      { memory := [255], energy := 0 } = some (-1) := by
  decide

/-- C2: the constructor taking a buffer, given a 2-byte buffer under a token
memory size of 4, builds a token whose memory has length 2, not 4. -/
theorem createFrom_short_buffer_length :
    (createFrom { tokenMemorySize := 4, cellMaxTokenBranchNumber := 6 } 1 [1, 2]).memory
      = [1, 2] ∧
    (createFrom { tokenMemorySize := 4, cellMaxTokenBranchNumber := 6 } 1
      [1, 2]).memory.length = 2 := by
  decide

/-- C3: for every stored memory, stored energy and token memory size `M >= 0`,
`deserializePrimitives` reads the token and leaves it with memory of length
exactly `M`, whatever the bytes that `resize` leaves uninitialized. -/
theorem deserializePrimitives_memory_length (p : SimulationParameters) (m : QByteArray)
    (e : ℚ) (rest : QDataStream) (junk : Nat → Byte) (hM : 0 ≤ p.tokenMemorySize) :
    ∃ t, deserializePrimitives p (StreamItem.bytes m :: StreamItem.real e :: rest) junk
        = some (t, rest) ∧
      (t.memory.length : Int) = p.tokenMemorySize := by
  refine ⟨_, rfl, ?_⟩
  simp only [QByteArray.length_resize]
  omega

/-- Witness of C3: a stored 2-byte memory read under a token memory size of 4. -/
theorem deserializePrimitives_memory_length_witness :
    (0 : Int) ≤ 4 ∧
    ∃ t, deserializePrimitives { tokenMemorySize := 4, cellMaxTokenBranchNumber := 6 }
        [StreamItem.bytes [1, 2], StreamItem.real 5] (fun _ => 170) = some (t, []) ∧
      (t.memory.length : Int) = 4 :=
  ⟨by decide,
   deserializePrimitives_memory_length { tokenMemorySize := 4, cellMaxTokenBranchNumber := 6 }
    [1, 2] 5 [] (fun _ => 170) (by decide)⟩

/-- C4: on the failing input, a stored 2-byte memory read under a token memory
size of 4 while the allocator holds the byte 170, `deserializePrimitives` keeps
the stored bytes and the stored energy but bytes 2 and 3 are 170, not 0. -/
theorem deserializePrimitives_padding_not_zeroed :
    deserializePrimitives { tokenMemorySize := 4, cellMaxTokenBranchNumber := 6 }
        [StreamItem.bytes [1, 2], StreamItem.real 5] (fun _ => 170)
      = some ({ memory := [1, 2, 170, 170], energy := 5 }, []) := by
  decide

/-- What `deserializePrimitives` does guarantee about the contents: the stored
bytes below `min(L, M)` and the stored energy are kept. -/
theorem deserializePrimitives_keeps_stored (p : SimulationParameters) (m : QByteArray)
    (e : ℚ) (rest : QDataStream) (junk : Nat → Byte) :
    ∃ t, deserializePrimitives p (StreamItem.bytes m :: StreamItem.real e :: rest) junk
        = some (t, rest) ∧
      t.energy = e ∧
      ∀ i, i < m.length → i < p.tokenMemorySize.toNat → t.memory.get? i = m.get? i := by
  refine ⟨_, rfl, rfl, ?_⟩
  intro i hL hM
  simp only [QByteArray.resize, QByteArray.left]
  split
  · rw [List.take_take, List.get?_eq_getElem?, List.get?_eq_getElem?,
      List.getElem?_take_of_lt (by omega)]
  · rw [List.get?_eq_getElem?, List.get?_eq_getElem?,
      List.getElem?_append_left (by simp; omega), List.getElem?_take_of_lt hM]

/-- C5: after the token memory size of a context is set to `M >= 0`, the
parameter holds `M`, the context has the same number of tokens, and every
token of the context has memory of length exactly `M`, whatever the lengths
before. -/
theorem setTokenMemorySize_memory_length (c : UnitContext) (M : Int) (hM : 0 ≤ M) :
    (c.setTokenMemorySize M).parameters.tokenMemorySize = M ∧
    (c.setTokenMemorySize M).tokens.length = c.tokens.length ∧
    ∀ t ∈ (c.setTokenMemorySize M).tokens, (t.memory.length : Int) = M := by
  refine ⟨rfl, by simp [UnitContext.setTokenMemorySize], ?_⟩
  intro t ht
  simp only [UnitContext.setTokenMemorySize, List.mem_map] at ht
  obtain ⟨t0, _, rfl⟩ := ht
  simp only [fitMemory, List.length_append, QByteArray.length_left, List.length_replicate]
  omega

/-- Witness of C5: a context with a 1-byte and a 3-byte token, resized to 2. -/
theorem setTokenMemorySize_memory_length_witness :
    (0 : Int) ≤ 2 ∧
    (UnitContext.setTokenMemorySize
      { parameters := { tokenMemorySize := 3, cellMaxTokenBranchNumber := 6 },
        tokens := [{ memory := [7], energy := 1 }, { memory := [1, 2, 3], energy := 2 }] }
      2).tokens = [{ memory := [7, 0], energy := 1 }, { memory := [1, 2], energy := 2 }] ∧
    ∀ t ∈ (UnitContext.setTokenMemorySize
      { parameters := { tokenMemorySize := 3, cellMaxTokenBranchNumber := 6 },
        tokens := [{ memory := [7], energy := 1 }, { memory := [1, 2, 3], energy := 2 }] }
      2).tokens, (t.memory.length : Int) = 2 :=
  ⟨by decide, by decide,
   (setTokenMemorySize_memory_length
      { parameters := { tokenMemorySize := 3, cellMaxTokenBranchNumber := 6 },
        tokens := [{ memory := [7], energy := 1 }, { memory := [1, 2, 3], energy := 2 }] }
      2 (by decide)).2.2⟩

/-- C6: for every token whose memory length equals the token memory size,
`duplicate` returns a token whose memory equals the source memory byte for
byte; the source is the unmodified argument. -/
theorem duplicate_copies_memory (p : SimulationParameters) (t : TokenImpl)
    (h : (t.memory.length : Int) = p.tokenMemorySize) :
    ∃ c, duplicate p t = some c ∧ c.memory = t.memory ∧
      ∀ i, c.memory.get? i = t.memory.get? i :=
  ⟨_, duplicate_eq p t h, rfl, fun _ => rfl⟩

/-- Witness of C6: a 3-byte token duplicated under a token memory size of 3. -/
theorem duplicate_copies_memory_witness :
    (((⟨[255, 1, 2], 1⟩ : TokenImpl).memory.length : Int) = 3) ∧
    ∃ c, duplicate { tokenMemorySize := 3, cellMaxTokenBranchNumber := 6 } ⟨[255, 1, 2], 1⟩
        = some c ∧ c.memory = [255, 1, 2] ∧
      ∀ i, c.memory.get? i = ([255, 1, 2] : QByteArray).get? i :=
  ⟨by decide,
   duplicate_copies_memory { tokenMemorySize := 3, cellMaxTokenBranchNumber := 6 }
    ⟨[255, 1, 2], 1⟩ (by decide)⟩

/-- C7, as stated, fails: duplicating a 1-byte token of energy 1 gives a copy of
energy 1, so source plus copy is 2, not 1. -/
theorem duplicate_energy_sum_counterexample :
    ∃ c, duplicate { tokenMemorySize := 1, cellMaxTokenBranchNumber := 6 } ⟨[0], 1⟩ = some c ∧
      c.energy = 1 ∧ (⟨[0], 1⟩ : TokenImpl).energy + c.energy ≠ 1 := by
  refine ⟨⟨[0], 1⟩, by decide, rfl, ?_⟩
  norm_num

/-- C7, amended: for every token with energy `e` (whose memory holds at least
the configured number of bytes, so that the copy loop is defined), the copy
returned by `duplicate` holds the whole of `e`, not a fraction, and the source
still holds `e`, so source plus copy is `2 * e`. -/
theorem duplicate_copies_energy (p : SimulationParameters) (t : TokenImpl)
    (h : p.tokenMemorySize ≤ (t.memory.length : Int)) :
    ∃ c, duplicate p t = some c ∧ c.energy = t.energy ∧
      t.energy + c.energy = 2 * t.energy :=
  ⟨_, duplicate_of_le p t h, rfl, by ring⟩

/-- Witness of C7 amended: a 1-byte token of energy 1. -/
theorem duplicate_copies_energy_witness :
    ((1 : Int) ≤ ((⟨[0], 1⟩ : TokenImpl).memory.length : Int)) ∧
    ∃ c, duplicate { tokenMemorySize := 1, cellMaxTokenBranchNumber := 6 } ⟨[0], 1⟩ = some c ∧
      c.energy = 1 ∧ (1 : ℚ) + c.energy = 2 * 1 :=
  ⟨by decide,
   duplicate_copies_energy { tokenMemorySize := 1, cellMaxTokenBranchNumber := 6 }
    ⟨[0], 1⟩ (by decide)⟩

/-- A value in `0..255` is stored unchanged by the conversion to `char`. -/
theorem byteOfInt_val (x : Int) (h0 : 0 ≤ x) (h1 : x < 256) :
    (((byteOfInt x).val : Nat) : Int) = x := by
  simp only [byteOfInt]
  omega

/-- C10: for every token memory size `M >= 0`, the `randomData = true`
constructor makes exactly `M` calls of the number generator, byte `k` of the
memory is the `k`-th value drawn (its low 8 bits, the value itself when it lies
in `0..255`), the energy is the one passed; two generators that return the same
next `M` values give the same token; with `randomData = false` the generator is
left untouched and the memory is all zero. -/
theorem createRandom_seeded_determinism (p : SimulationParameters)
    (g g' : NumberGenerator) (energy : ℚ) (hM : 0 ≤ p.tokenMemorySize) :
    (∃ t gOut, createRandom p g energy true = some (t, gOut) ∧
        ((gOut.calls : Int) = g.calls + p.tokenMemorySize ∧ gOut.pending = g.pending) ∧
        t.energy = energy ∧ (t.memory.length : Int) = p.tokenMemorySize ∧
        ∀ k, k < p.tokenMemorySize.toNat →
          t.memory.get? k = some (byteOfInt (g.pending (g.calls + k))) ∧
          (0 ≤ g.pending (g.calls + k) → g.pending (g.calls + k) < 256 →
            (((byteOfInt (g.pending (g.calls + k))).val : Nat) : Int)
              = g.pending (g.calls + k))) ∧
    ((∀ k, k < p.tokenMemorySize.toNat →
        g.pending (g.calls + k) = g'.pending (g'.calls + k)) →
      (createRandom p g energy true).map Prod.fst
        = (createRandom p g' energy true).map Prod.fst) ∧
    createRandom p g energy false =
      some ({ memory := List.replicate p.tokenMemorySize.toNat 0, energy := energy }, g) := by
  refine ⟨⟨_, _, createRandom_true p g energy, ⟨?_, rfl⟩, rfl, ?_, ?_⟩, ?_, rfl⟩
  · show ((g.calls + p.tokenMemorySize.toNat : Nat) : Int) = _
    omega
  · simp only [List.length_map, List.length_range]
    omega
  · intro k hk
    have hget : ((List.range p.tokenMemorySize.toNat).map
        fun k => byteOfInt (g.pending (g.calls + k))).get? k
          = some (byteOfInt (g.pending (g.calls + k))) := by
      rw [List.get?_eq_getElem?, List.getElem?_map, List.getElem?_range hk]
      rfl
    exact ⟨hget, fun h0 h1 => byteOfInt_val _ h0 h1⟩
  · intro hsame
    rw [createRandom_true, createRandom_true]
    simp only [Option.map_some', Option.some.injEq, TokenImpl.mk.injEq, and_true]
    apply List.map_congr_left
    intro k hk
    rw [hsame k (List.mem_range.mp hk)]

/-- Witness of C10: two generators in different states whose next two values
are 10 and 11 build the same 2-byte token. -/
theorem createRandom_seeded_determinism_witness :
    (0 : Int) ≤ 2 ∧
    (createRandom { tokenMemorySize := 2, cellMaxTokenBranchNumber := 6 }
        { pending := fun k => 10 + (k : Int), calls := 0 } 5 true).map Prod.fst
      = (createRandom { tokenMemorySize := 2, cellMaxTokenBranchNumber := 6 }
        { pending := fun k => 9 + (k : Int), calls := 1 } 5 true).map Prod.fst :=
  ⟨by decide,
   (createRandom_seeded_determinism { tokenMemorySize := 2, cellMaxTokenBranchNumber := 6 }
      { pending := fun k => 10 + (k : Int), calls := 0 }
      { pending := fun k => 9 + (k : Int), calls := 1 } 5 (by decide)).2.1
      (by intro k _; simp only [Nat.cast_add, Nat.cast_one, Nat.cast_zero]; omega)⟩

/-! ## The claims on the encoding of `(timestep, settings)` -/

namespace EngineInterface

open Parser

theorem PTree.get_put_same {V : Type} (tree : PTree V) (node : String) (d : Data V) :
    PTree.get? (PTree.put tree node d) node = some d := by
  induction tree with
  | nil => simp [PTree.put, PTree.get?]
  | cons e rest ih =>
    by_cases h : e.1 = node
    · simp [PTree.put, PTree.get?, h]
    · simp [PTree.put, PTree.get?, h, ih]

theorem PTree.get_put_other {V : Type} (tree : PTree V) (node n : String) (d : Data V)
    (hne : node ≠ n) : PTree.get? (PTree.put tree node d) n = PTree.get? tree n := by
  induction tree with
  | nil => simp [PTree.put, PTree.get?, hne]
  | cons e rest ih =>
    by_cases h : e.1 = node
    · have h2 : e.1 ≠ n := by rw [h]; exact hne
      simp [PTree.put, PTree.get?, h, h2, hne]
    · by_cases h3 : e.1 = n
      · simp only [PTree.put, if_neg h, PTree.get?, if_pos h3]
      · simp only [PTree.put, if_neg h, PTree.get?, if_neg h3, ih]

/-- Encoding the parameters does not touch a node that is none of theirs. -/
theorem Parser.get_encodeSettings_other {V : Type} (specs : List (ParameterSpec V))
    (tree : PTree V) (s : Settings V) (n : String)
    (hn : n ∉ specs.map fun sp => sp.node) :
    PTree.get? (encodeDecodeSettings specs tree s Task.Encode).1 n = PTree.get? tree n := by
  induction specs generalizing tree s with
  | nil => simp [encodeDecodeSettings]
  | cons sp specs ih =>
    cases s with
    | nil => simp [encodeDecodeSettings]
    | cons v vs =>
      simp only [List.map_cons, List.mem_cons, not_or] at hn
      simp only [encodeDecodeSettings, encodeDecodeParameter]
      rw [ih _ _ hn.2]
      exact PTree.get_put_other _ _ _ _ (fun h => hn.1 h.symm)

/-- Decoding reads every parameter from the tree it is given, which it leaves
unchanged. -/
theorem Parser.decodeSettings_eq {V : Type} (specs : List (ParameterSpec V))
    (tree : PTree V) :
    encodeDecodeSettings specs tree (specs.map fun sp => sp.defaultValue) Task.Decode =
      (tree, specs.map fun sp =>
        ((PTree.get? tree sp.node).bind unwrapParameter).getD sp.defaultValue) := by
  induction specs with
  | nil => simp [encodeDecodeSettings]
  | cons sp specs ih =>
    simp only [List.map_cons, encodeDecodeSettings, encodeDecodeParameter, ih]

/-- Reading back, parameter by parameter, a tree into which the parameters were
encoded under pairwise distinct nodes gives the encoded values. -/
theorem Parser.read_encodeSettings {V : Type} (specs : List (ParameterSpec V))
    (tree : PTree V) (s : Settings V)
    (hn : (specs.map fun sp => sp.node).Nodup) (hs : s.length = specs.length) :
    (specs.map fun sp =>
      ((PTree.get? (encodeDecodeSettings specs tree s Task.Encode).1 sp.node).bind
        unwrapParameter).getD sp.defaultValue) = s := by
  induction specs generalizing tree s with
  | nil =>
    cases s with
    | nil => rfl
    | cons v vs => simp at hs
  | cons sp specs ih =>
    cases s with
    | nil => simp at hs
    | cons v vs =>
      simp only [List.map_cons, List.nodup_cons] at hn
      simp only [List.length_cons, Nat.add_right_cancel_iff] at hs
      simp only [List.map_cons, encodeDecodeSettings, encodeDecodeParameter, List.cons.injEq]
      constructor
      · rw [Parser.get_encodeSettings_other _ _ _ _ hn.1, PTree.get_put_same]
        rfl
      · exact ih _ _ hn.2 hs

/-- Closed form of decoding: every parameter, and the timestep, is the value
stored under its node, or its default. -/
theorem Parser.decodeTimestepAndSettings_eq {V : Type} (f : Format V) (tree : PTree V) :
    decodeTimestepAndSettings f tree =
      (((PTree.get? tree f.timestepNode).bind unwrapTimestep).getD 0,
       f.parameters.map fun sp =>
        ((PTree.get? tree sp.node).bind unwrapParameter).getD sp.defaultValue) := by
  simp only [decodeTimestepAndSettings, encodeDecode, encodeDecodeParameter,
    Format.defaultSettings, Parser.decodeSettings_eq]

/-- C8: for every timestep `t` and every settings value `s` that has one entry
per parameter of a format with pairwise distinct nodes,
`decodeTimestepAndSettings (encode t s) = (t, s)`; this holds in particular for
the settings with every parameter at its default. -/
theorem Parser.decode_encode_roundtrip {V : Type} (f : Format V) (t : Nat)
    (s : Settings V)
    (hn : (f.timestepNode :: f.parameters.map fun sp => sp.node).Nodup)
    (hs : s.length = f.parameters.length) :
    decodeTimestepAndSettings f (encode f t s) = (t, s) ∧
    decodeTimestepAndSettings f (encode f t f.defaultSettings) = (t, f.defaultSettings) := by
  have key : ∀ s' : Settings V, s'.length = f.parameters.length →
      decodeTimestepAndSettings f (encode f t s') = (t, s') := by
    intro s' hs'
    rw [List.nodup_cons] at hn
    rw [Parser.decodeTimestepAndSettings_eq]
    simp only [encode, encodeDecode, encodeDecodeParameter]
    rw [Parser.get_encodeSettings_other _ _ _ _ hn.1, PTree.get_put_same,
      Parser.read_encodeSettings _ _ _ hn.2 hs']
    rfl
  exact ⟨key s hs, key _ (by simp [Format.defaultSettings])⟩

/-- Witness of C8: a format with two parameters, encoded and decoded at
timestep 7 with the values 3 and 4. -/
theorem Parser.decode_encode_roundtrip_witness :
    (["time step", "token memory size", "max token branch number"] : List String).Nodup ∧
    decodeTimestepAndSettings
        ({ timestepNode := "time step",
           parameters := [⟨"token memory size", 256⟩, ⟨"max token branch number", 6⟩] } :
          Format Int)
        (encode { timestepNode := "time step",
                  parameters := [⟨"token memory size", 256⟩, ⟨"max token branch number", 6⟩] }
          7 [3, 4]) = (7, [3, 4]) :=
  ⟨by decide,
   (Parser.decode_encode_roundtrip
      ({ timestepNode := "time step",
         parameters := [⟨"token memory size", 256⟩, ⟨"max token branch number", 6⟩] } :
        Format Int) 7 [3, 4] (by decide) (by decide)).1⟩

/-- C9: decoding any property tree succeeds with one value per parameter; a
parameter whose node is missing gets its default value, a parameter whose node
is present gets the stored value, independently of the other nodes; likewise
the timestep is the stored one, or 0 when its node is missing. -/
theorem Parser.decode_applies_defaults {V : Type} (f : Format V) (tree : PTree V) :
    (decodeTimestepAndSettings f tree).2.length = f.parameters.length ∧
    (∀ i (hi : i < f.parameters.length),
      (PTree.get? tree (f.parameters.get ⟨i, hi⟩).node = none →
        (decodeTimestepAndSettings f tree).2.get? i
          = some (f.parameters.get ⟨i, hi⟩).defaultValue) ∧
      (∀ v, PTree.get? tree (f.parameters.get ⟨i, hi⟩).node = some (Data.parameter v) →
        (decodeTimestepAndSettings f tree).2.get? i = some v)) ∧
    (PTree.get? tree f.timestepNode = none → (decodeTimestepAndSettings f tree).1 = 0) ∧
    (∀ t, PTree.get? tree f.timestepNode = some (Data.timestep t) →
      (decodeTimestepAndSettings f tree).1 = t) := by
  rw [Parser.decodeTimestepAndSettings_eq]
  refine ⟨by simp, ?_, ?_, ?_⟩
  · intro i hi
    have hget : ∀ x, ((PTree.get? tree (f.parameters.get ⟨i, hi⟩).node).bind
          unwrapParameter).getD (f.parameters.get ⟨i, hi⟩).defaultValue = x →
        (f.parameters.map fun sp =>
          ((PTree.get? tree sp.node).bind unwrapParameter).getD sp.defaultValue).get? i
          = some x := by
      intro x hx
      rw [List.get?_eq_getElem?, List.getElem?_map, List.getElem?_eq_getElem hi]
      simpa using hx
    constructor
    · intro hmiss
      exact hget _ (by rw [hmiss]; rfl)
    · intro v hv
      exact hget _ (by rw [hv]; rfl)
  · intro hmiss
    simp only [hmiss]
    rfl
  · intro t ht
    simp only [ht]
    rfl

/-- Witness of C9: a tree that holds only the second of two parameters. -/
theorem Parser.decode_applies_defaults_witness :
    PTree.get? ([("max token branch number", Data.parameter 9)] : PTree Int)
      "token memory size" = none ∧
    (decodeTimestepAndSettings
        ({ timestepNode := "time step",
           parameters := [⟨"token memory size", 256⟩, ⟨"max token branch number", 6⟩] } :
          Format Int)
        [("max token branch number", Data.parameter 9)]).2.get? 0 = some 256 ∧
    (decodeTimestepAndSettings
        ({ timestepNode := "time step",
           parameters := [⟨"token memory size", 256⟩, ⟨"max token branch number", 6⟩] } :
          Format Int)
        [("max token branch number", Data.parameter 9)]).2.get? 1 = some 9 :=
  ⟨by decide,
   ((Parser.decode_applies_defaults
      ({ timestepNode := "time step",
         parameters := [⟨"token memory size", 256⟩, ⟨"max token branch number", 6⟩] } :
        Format Int)
      [("max token branch number", Data.parameter 9)]).2.1 0 (by decide)).1 (by decide),
   ((Parser.decode_applies_defaults
      ({ timestepNode := "time step",
         parameters := [⟨"token memory size", 256⟩, ⟨"max token branch number", 6⟩] } :
        Format Int)
      [("max token branch number", Data.parameter 9)]).2.1 1 (by decide)).2 9 (by decide)⟩

end EngineInterface

/-! ## The claims on the compartment grid and the thread controller -/

/-- C11: building a simulation fails with the configuration error exactly when
the world size is not divisible by the grid dimensions in each axis; the
1008x504 universe of the benchmarks is accepted with a 1x1 grid and with a 12x6
grid (compartments of 84x84), for every thread count. -/
theorem buildSimulationController_fails_iff (universeSize : IntVector2D)
    (data : ModelCpuData) :
    (buildSimulationController universeSize data
        = Except.error BuildError.ConfigurationError ↔
      ¬ (data.gridSize.x ∣ universeSize.x ∧ data.gridSize.y ∣ universeSize.y)) ∧
    (∀ threads : Int,
      buildSimulationController CpuBenchmarks.universeSize
          { maxRunningThreads := threads, gridSize := { x := 1, y := 1 } }
        = Except.ok { gridSize := { x := 1, y := 1 },
                      compartmentSize := { x := 1008, y := 504 } } ∧
      buildSimulationController CpuBenchmarks.universeSize
          { maxRunningThreads := threads, gridSize := { x := 12, y := 6 } }
        = Except.ok { gridSize := { x := 12, y := 6 },
                      compartmentSize := { x := 84, y := 84 } }) := by
  have hx1 : (1008 : Int) % 1 = 0 := by norm_num
  have hy1 : (504 : Int) % 1 = 0 := by norm_num
  have dx1 : (1008 : Int) / 1 = 1008 := by norm_num
  have dy1 : (504 : Int) / 1 = 504 := by norm_num
  have hx : (1008 : Int) % 12 = 0 := by norm_num
  have hy : (504 : Int) % 6 = 0 := by norm_num
  have dx : (1008 : Int) / 12 = 84 := by norm_num
  have dy : (504 : Int) / 6 = 84 := by norm_num
  refine ⟨?_, fun threads => ⟨?_, ?_⟩⟩
  · unfold buildSimulationController
    rw [Int.dvd_iff_emod_eq_zero, Int.dvd_iff_emod_eq_zero]
    split <;> simp_all
  · simp only [buildSimulationController, CpuBenchmarks.universeSize, hx1, hy1, dx1, dy1,
      and_self, if_true]
  · simp only [buildSimulationController, CpuBenchmarks.universeSize, hx, hy, dx, dy,
      and_self, if_true]

/-- C13: a thread controller on which `init` was not called has a maximum of
exactly 1 running thread (and no thread registered). -/
theorem construct_maxRunningThreads :
    UnitThreadControllerImpl.construct.maxRunningThreads = 1 ∧
    UnitThreadControllerImpl.construct.threads = [] ∧
    UnitThreadControllerImpl.construct.threadsByContexts = [] :=
  ⟨rfl, rfl, rfl⟩

/-- C14: `RelativeLocation` consists of exactly eight pairwise distinct values,
which stand for the eight offsets of `{-1, 0, 1}^2` other than `(0, 0)`, so a
list of pairwise distinct locations has at most 8 entries. -/
theorem relativeLocation_eight :
    RelativeLocation.all.length = 8 ∧ RelativeLocation.all.Nodup ∧
    (∀ l : RelativeLocation, l ∈ RelativeLocation.all) ∧
    Function.Injective RelativeLocation.toUnderlying ∧
    (∀ l : RelativeLocation, l.toUnderlying < 8) ∧
    Function.Injective RelativeLocation.offsetByName ∧
    (∀ dx dy : Int, (∃ l : RelativeLocation, l.offsetByName = (dx, dy)) ↔
      (-1 ≤ dx ∧ dx ≤ 1 ∧ -1 ≤ dy ∧ dy ≤ 1 ∧ (dx, dy) ≠ (0, 0))) ∧
    (∀ ls : List RelativeLocation, ls.Nodup → ls.length ≤ 8) := by
  have hall : ∀ l : RelativeLocation, l ∈ RelativeLocation.all := by
    intro l; cases l <;> decide
  refine ⟨rfl, by decide, hall, ?_, ?_, ?_, ?_, ?_⟩
  · intro a b h
    cases a <;> cases b <;> first | rfl | (exact absurd h (by decide))
  · intro l; cases l <;> decide
  · intro a b h
    cases a <;> cases b <;> first | rfl | (exact absurd h (by decide))
  · intro dx dy
    constructor
    · rintro ⟨l, hl⟩
      cases l <;> simp only [RelativeLocation.offsetByName, Prod.mk.injEq] at hl <;>
        obtain ⟨rfl, rfl⟩ := hl <;> decide
    · rintro ⟨h1, h2, h3, h4, h5⟩
      have hx : dx = -1 ∨ dx = 0 ∨ dx = 1 := by omega
      have hy : dy = -1 ∨ dy = 0 ∨ dy = 1 := by omega
      rcases hx with rfl | rfl | rfl <;> rcases hy with rfl | rfl | rfl
      · exact ⟨RelativeLocation.UpperLeft, rfl⟩
      · exact ⟨RelativeLocation.Left, rfl⟩
      · exact ⟨RelativeLocation.LowerLeft, rfl⟩
      · exact ⟨RelativeLocation.Upper, rfl⟩
      · exact absurd rfl h5
      · exact ⟨RelativeLocation.Lower, rfl⟩
      · exact ⟨RelativeLocation.UpperRight, rfl⟩
      · exact ⟨RelativeLocation.Right, rfl⟩
      · exact ⟨RelativeLocation.LowerRight, rfl⟩
  · intro ls hls
    have hsub : ls ⊆ RelativeLocation.all := fun l _ => hall l
    have := (List.subperm_of_subset hls hsub).length_le
    simpa [RelativeLocation.all] using this

/-- Witness of C14: a list of three distinct locations. -/
theorem relativeLocation_eight_witness :
    [RelativeLocation.Upper, RelativeLocation.Left, RelativeLocation.Lower].Nodup ∧
    [RelativeLocation.Upper, RelativeLocation.Left, RelativeLocation.Lower].length ≤ 8 :=
  ⟨by decide, relativeLocation_eight.2.2.2.2.2.2.2 _ (by decide)⟩

/-! ## Further claims on `TokenImpl` -/

/-- The copy loop of `duplicate` never changes the length of the new memory. -/
theorem forLoop_copyStep_length (src : QByteArray) (k i : Nat) (dst m : QByteArray)
    (h : forLoop (copyStep src) k i dst = some m) : m.length = dst.length := by
  induction k generalizing i dst with
  | zero =>
    simp only [forLoop, Option.some.injEq] at h
    rw [← h]
  | succ k ih =>
    simp only [forLoop, copyStep] at h
    cases hr : QByteArray.at? src (i : Int) with
    | none => simp [hr] at h
    | some c =>
      simp only [hr, Option.map_some', Option.some_bind] at h
      rw [ih (i + 1) _ h]
      simp [QByteArray.setAt]

/-- C15: `getTokenAccessNumber` is defined whenever the memory is not empty and
the branch count is at least 1, for every byte at offset 0 and whatever the
signedness of `char`; it is undefined exactly when the memory is empty or the
branch count is 0. -/
theorem getTokenAccessNumber_defined (charSigned : Bool) (p : SimulationParameters)
    (t : TokenImpl) :
    (1 ≤ t.memory.length → 1 ≤ p.cellMaxTokenBranchNumber →
      (∃ b, QByteArray.at? t.memory 0 = some b) ∧ p.cellMaxTokenBranchNumber ≠ 0 ∧
      ∃ r, getTokenAccessNumber charSigned p t = some r) ∧
    (getTokenAccessNumber charSigned p t = none ↔
      t.memory.length = 0 ∨ p.cellMaxTokenBranchNumber = 0) := by
  obtain ⟨memory, energy⟩ := t
  cases memory with
  | nil => simp [getTokenAccessNumber, QByteArray.at?]
  | cons b rest =>
    by_cases hn : p.cellMaxTokenBranchNumber = 0
    · simp [getTokenAccessNumber, QByteArray.at?, hn]
    · simp [getTokenAccessNumber, QByteArray.at?, hn]

/-- Witness of C15: a 2-byte token whose byte 0 is 255, with 6 branches. -/
theorem getTokenAccessNumber_defined_witness :
    1 ≤ (⟨[255, 0], 0⟩ : TokenImpl).memory.length ∧ (1 : Int) ≤ 6 ∧
    ∃ r, getTokenAccessNumber true { tokenMemorySize := 2, cellMaxTokenBranchNumber := 6 }
      ⟨[255, 0], 0⟩ = some r :=
  ⟨by decide, by decide,
   ((getTokenAccessNumber_defined true { tokenMemorySize := 2, cellMaxTokenBranchNumber := 6 }
      ⟨[255, 0], 0⟩).1 (by decide) (by decide)).2.2⟩

/-- C16, as stated, fails: a 1-byte source duplicated under a token memory size of
2 makes the copy loop read index 1 of the source, out of bounds, so no token of
length 2 is returned. -/
theorem duplicate_short_source_counterexample :
    ¬ ∃ c, duplicate { tokenMemorySize := 2, cellMaxTokenBranchNumber := 6 } ⟨[1], 1⟩
        = some c ∧ (c.memory.length : Int) = 2 := by
  decide

/-- C16, amended: for every token memory size `M >= 0`, `duplicate` returns a
token whenever the source holds at least `M` bytes, and its memory has length
exactly `M`; when the source's length is `M` every step of the copy loop reads
and writes inside the arrays; whatever the source, a token that is returned has
memory of length `M`. -/
theorem duplicate_memory_length (p : SimulationParameters) (t : TokenImpl)
    (hM : 0 ≤ p.tokenMemorySize) :
    (∀ c, duplicate p t = some c → (c.memory.length : Int) = p.tokenMemorySize) ∧
    (p.tokenMemorySize ≤ (t.memory.length : Int) →
      ∃ c, duplicate p t = some c ∧ (c.memory.length : Int) = p.tokenMemorySize) ∧
    ((t.memory.length : Int) = p.tokenMemorySize →
      ∀ i, i < p.tokenMemorySize.toNat → ∀ dst : QByteArray,
        dst.length = p.tokenMemorySize.toNat →
        i < t.memory.length ∧ i < dst.length ∧
        ∃ dst', copyStep t.memory i dst = some dst' ∧
          dst'.length = p.tokenMemorySize.toNat) := by
  have hlen : ∀ c, duplicate p t = some c →
      (c.memory.length : Int) = p.tokenMemorySize := by
    intro c hc
    simp only [duplicate, create, Option.map_eq_some'] at hc
    obtain ⟨m, hm, rfl⟩ := hc
    rw [forLoop_copyStep_length _ _ _ _ _ hm, QByteArray.length_filled]
    omega
  refine ⟨hlen, ?_, ?_⟩
  · intro hle
    exact ⟨_, duplicate_of_le p t hle, hlen _ (duplicate_of_le p t hle)⟩
  · intro heq i hi dst hdst
    have hit : i < t.memory.length := by omega
    refine ⟨hit, by omega, ?_⟩
    refine ⟨dst.set i (t.memory.get ⟨i, hit⟩), ?_, by simp [hdst]⟩
    simp only [copyStep, QByteArray.at_natCast, List.get?_eq_get hit, QByteArray.setAt,
      Option.map_some']

/-- Witness of C16 amended: a 3-byte token duplicated under a token memory size of 2. -/
theorem duplicate_memory_length_witness :
    (0 : Int) ≤ 2 ∧ (2 : Int) ≤ ((⟨[7, 8, 9], 1⟩ : TokenImpl).memory.length : Int) ∧
    ∃ c, duplicate { tokenMemorySize := 2, cellMaxTokenBranchNumber := 6 } ⟨[7, 8, 9], 1⟩
        = some c ∧ (c.memory.length : Int) = 2 :=
  ⟨by decide, by decide,
   (duplicate_memory_length { tokenMemorySize := 2, cellMaxTokenBranchNumber := 6 }
      ⟨[7, 8, 9], 1⟩ (by decide)).2.1 (by decide)⟩

/-- C17, as stated, fails: with 300 branches, after `setTokenAccessNumber(256)`
the byte at offset 0 is 0 and `getTokenAccessNumber` returns 0, not 256,
whatever the signedness of `char`. -/
theorem accessNumber_roundtrip_counterexample :
    getTokenAccessNumber true { tokenMemorySize := 1, cellMaxTokenBranchNumber := 300 }
        (setTokenAccessNumber ⟨[7], 0⟩ 256) = some 0 ∧
    getTokenAccessNumber false { tokenMemorySize := 1, cellMaxTokenBranchNumber := 300 }
        (setTokenAccessNumber ⟨[7], 0⟩ 256) = some 0 ∧
    (0 : Int) ≤ 256 ∧ (256 : Int) < 300 ∧ (0 : Int) ≠ 256 := by
  decide

/-- C17, amended: for every branch count `n >= 1`, every token with non-empty
memory and every `i` with `0 <= i < n` that a `char` holds unchanged (`i < 128`,
or `i < 256` where `char` is unsigned), after `setTokenAccessNumber(i)` the call
`getTokenAccessNumber()` returns `i`. -/
theorem accessNumber_roundtrip (charSigned : Bool) (p : SimulationParameters)
    (t : TokenImpl) (i : Int) (hn : 1 ≤ p.cellMaxTokenBranchNumber)
    (ht : 1 ≤ t.memory.length) (h0 : 0 ≤ i) (hi : i < p.cellMaxTokenBranchNumber)
    (hc : i < 128 ∨ (charSigned = false ∧ i < 256)) :
    getTokenAccessNumber charSigned p (setTokenAccessNumber t i) = some i := by
  obtain ⟨memory, energy⟩ := t
  cases memory with
  | nil => simp at ht
  | cons b rest =>
    have hne : p.cellMaxTokenBranchNumber ≠ 0 := by omega
    have h256 : i < 256 := by rcases hc with h | ⟨_, h⟩ <;> omega
    have hval : (((byteOfInt i).val : Nat) : Int) = i := byteOfInt_val i h0 h256
    have hchar : charValue charSigned (byteOfInt i) = i := by
      rcases hc with h | ⟨h, _⟩
      · rw [charValue_of_lt charSigned _ (by omega), hval]
      · subst h; rw [charValue_unsigned, hval]
    simp only [setTokenAccessNumber, List.isEmpty_cons, Bool.false_eq_true, if_false,
      QByteArray.setAt, List.set_cons_zero, getTokenAccessNumber, QByteArray.at?,
      le_refl, if_true, Int.toNat_zero, List.get?_cons_zero, hne, hchar]
    rw [Int.tmod_eq_of_lt h0 hi]

/-- Witness of C17 amended: access number 5 of 6 on a 2-byte token. -/
theorem accessNumber_roundtrip_witness :
    (1 : Int) ≤ 6 ∧ 1 ≤ (⟨[200, 9], 0⟩ : TokenImpl).memory.length ∧ (0 : Int) ≤ 5 ∧
    (5 : Int) < 6 ∧ (5 : Int) < 128 ∧
    getTokenAccessNumber true { tokenMemorySize := 2, cellMaxTokenBranchNumber := 6 }
      (setTokenAccessNumber ⟨[200, 9], 0⟩ 5) = some 5 :=
  ⟨by decide, by decide, by decide, by decide, by decide,
   accessNumber_roundtrip true { tokenMemorySize := 2, cellMaxTokenBranchNumber := 6 }
    ⟨[200, 9], 0⟩ 5 (by decide) (by decide) (by decide) (by decide) (Or.inl (by decide))⟩

/-- C18: for every token whose memory length equals the token memory size,
`deserializePrimitives` applied to what `serializePrimitives` wrote (under the
same size, whatever follows in the stream) yields a token with the same memory
bytes and the same energy, and leaves the rest of the stream. -/
theorem deserialize_serialize_roundtrip (p : SimulationParameters) (t : TokenImpl)
    (rest : QDataStream) (junk : Nat → Byte)
    (h : (t.memory.length : Int) = p.tokenMemorySize) :
    deserializePrimitives p (serializePrimitives t [] ++ rest) junk = some (t, rest) := by
  have hn : p.tokenMemorySize.toNat = t.memory.length := by omega
  simp only [serializePrimitives, List.nil_append, List.cons_append, deserializePrimitives,
    QByteArray.left, QByteArray.resize, hn, List.take_length, le_refl, if_true]

/-- Witness of C18: a 3-byte token of energy 5 written and read back. -/
theorem deserialize_serialize_roundtrip_witness :
    (((⟨[255, 1, 2], 5⟩ : TokenImpl).memory.length : Int) = 3) ∧
    deserializePrimitives { tokenMemorySize := 3, cellMaxTokenBranchNumber := 6 }
      (serializePrimitives ⟨[255, 1, 2], 5⟩ [] ++ []) (fun _ => 170)
      = some (⟨[255, 1, 2], 5⟩, []) :=
  ⟨by decide,
   deserialize_serialize_roundtrip { tokenMemorySize := 3, cellMaxTokenBranchNumber := 6 }
    ⟨[255, 1, 2], 5⟩ [] (fun _ => 170) (by decide)⟩

/-! ## The claims on the parser of the simulation list -/

namespace Web

open Parser

/-- On a well-formed element the loop body builds the record field by field. -/
theorem Parser.parseSimulationInfo_object (members : List (String × QJsonValue))
    (worldSize : List QJsonValue)
    (h : QJsonObject.value members "worldSize" = QJsonValue.array worldSize) :
    parseSimulationInfo (QJsonValue.object members) = Except.ok
      { simulationId := toString (QJsonObject.value members "id").toInt,
        isActive := (QJsonObject.value members "isActive").toBool,
        simulationName := (QJsonObject.value members "simulationName").toStdString,
        userName := (QJsonObject.value members "userName").toStdString,
        timestep := (QJsonObject.value members "timestep").toInt,
        worldSize := { x := (QJsonArray.at worldSize 0).toInt,
                       y := (QJsonArray.at worldSize 1).toInt } } := by
  simp [parseSimulationInfo, QJsonValue.isObject, QJsonValue.toObject, h,
    QJsonValue.isArray, QJsonValue.toArray]

/-- On any other element the loop body throws. -/
theorem Parser.parseSimulationInfo_error (v : QJsonValue) (h : ¬ ElementWellFormed v) :
    parseSimulationInfo v = Except.error { message := "Parser error." } := by
  unfold parseSimulationInfo
  cases v with
  | object members =>
    cases hw : QJsonObject.value members "worldSize" with
    | array worldSize => exact absurd ⟨members, worldSize, rfl, hw⟩ h
    | _ => simp [QJsonValue.isObject, QJsonValue.toObject, hw, QJsonValue.isArray]
  | _ => simp [QJsonValue.isObject]

/-- The loop over well-formed elements appends one record per element, in
order. -/
theorem Parser.parseLoop_ok (items : List QJsonValue) (result : List SimulationInfo)
    (h : ∀ v ∈ items, ElementWellFormed v) :
    ∃ infos, parseLoop items result = Except.ok (result ++ infos) ∧
      List.Forall₂ (fun v info => parseSimulationInfo v = Except.ok info) items infos := by
  induction items generalizing result with
  | nil => exact ⟨[], by simp [parseLoop], List.Forall₂.nil⟩
  | cons v rest ih =>
    obtain ⟨members, worldSize, rfl, hw⟩ := h v (List.mem_cons_self _ _)
    obtain ⟨info, hinfo⟩ : ∃ info, parseSimulationInfo (QJsonValue.object members)
        = Except.ok info := ⟨_, Parser.parseSimulationInfo_object _ _ hw⟩
    obtain ⟨infos, hloop, hall⟩ := ih (result ++ [info])
      (fun w hw' => h w (List.mem_cons_of_mem _ hw'))
    refine ⟨info :: infos, ?_, List.Forall₂.cons hinfo hall⟩
    simp only [parseLoop, hinfo, hloop, List.append_assoc, List.singleton_append]

/-- The loop throws as soon as one element is not well formed. -/
theorem Parser.parseLoop_error (items : List QJsonValue) (result : List SimulationInfo)
    (h : ¬ ∀ v ∈ items, ElementWellFormed v) :
    parseLoop items result = Except.error { message := "Parser error." } := by
  induction items generalizing result with
  | nil => exact absurd (fun v hv => absurd hv (List.not_mem_nil v)) h
  | cons v rest ih =>
    by_cases hv : ElementWellFormed v
    · obtain ⟨members, worldSize, rfl, hw⟩ := hv
      simp only [parseLoop, Parser.parseSimulationInfo_object _ _ hw]
      apply ih
      intro hrest
      apply h
      intro w hw'
      rcases List.mem_cons.mp hw' with rfl | hmem
      · exact ⟨members, worldSize, rfl, hw⟩
      · exact hrest w hmem
    · simp only [parseLoop, Parser.parseSimulationInfo_error v hv]

/-- On a well-formed document `parse` returns the records of the loop. -/
theorem Parser.parse_wellFormed (fromJson : QByteArray → QJsonDocument) (raw : QByteArray)
    (key : String) (items : List QJsonValue)
    (hdoc : fromJson raw = QJsonDocument.object [(key, QJsonValue.array items)])
    (h : ∀ v ∈ items, ElementWellFormed v) :
    ∃ infos, parse fromJson raw = Except.ok infos ∧
      List.Forall₂ (fun v info => parseSimulationInfo v = Except.ok info) items infos := by
  obtain ⟨infos, hloop, hall⟩ := Parser.parseLoop_ok items [] h
  refine ⟨infos, ?_, hall⟩
  simp only [parse, hdoc, QJsonValue.isArray, QJsonValue.toArray, hloop]
  simp

/-- On any other document `parse` throws. -/
theorem Parser.parse_not_wellFormed (fromJson : QByteArray → QJsonDocument)
    (raw : QByteArray) (h : ¬ WellFormed (fromJson raw)) :
    parse fromJson raw = Except.error { message := "Parser error." } := by
  unfold parse
  cases hdoc : fromJson raw with
  | null => rfl
  | array items => rfl
  | object jsonObject =>
    match jsonObject, hdoc with
    | [], _ => rfl
    | _ :: _ :: _, _ => rfl
    | [(key, dataValue)], hdoc =>
      cases dataValue with
      | array items =>
        simp only [QJsonValue.isArray, QJsonValue.toArray, Bool.not_true, Bool.false_eq_true,
          if_false]
        apply Parser.parseLoop_error
        intro hall
        exact h ⟨key, items, hdoc, hall⟩
      | _ => simp [QJsonValue.isArray]

/-- Two lists related element by element are related at every index. -/
theorem Parser.forall2_get {α β : Type} (R : α → β → Prop) (l₁ : List α) (l₂ : List β)
    (h : List.Forall₂ R l₁ l₂) (k : Nat) (a : α) (ha : l₁.get? k = some a) :
    ∃ b, l₂.get? k = some b ∧ R a b := by
  induction h generalizing k with
  | nil => simp at ha
  | cons hab _ ih =>
    cases k with
    | zero =>
      simp only [List.get?_cons_zero, Option.some.injEq] at ha
      subst ha
      exact ⟨_, rfl, hab⟩
    | succ k => exact ih k (by simpa using ha)

/-- The value of a key that no member carries is `Undefined`. -/
theorem Parser.value_missing (members : List (String × QJsonValue)) (key : String)
    (h : ∀ e ∈ members, e.1 ≠ key) : QJsonObject.value members key = QJsonValue.undefined := by
  induction members with
  | nil => rfl
  | cons e rest ih =>
    have he : e.1 ≠ key := h e (List.mem_cons_self _ _)
    simp only [QJsonObject.value, if_neg he]
    exact ih (fun e' he' => h e' (List.mem_cons_of_mem _ he'))

/-- C19: `parse` raises `ParseErrorException` exactly when the input is not a
JSON document whose root is an object with exactly one key whose value is an
array of objects with an array-valued `worldSize`; an exception carries the
message only, no records; on a well-formed document records are returned, and
an element with an array-valued `worldSize` never raises, whatever its other
members and whatever the `worldSize` array holds. -/
theorem Parser.parse_raises_iff (fromJson : QByteArray → QJsonDocument) (raw : QByteArray) :
    ((∃ e, parse fromJson raw = Except.error e) ↔ ¬ WellFormed (fromJson raw)) ∧
    (∀ e, parse fromJson raw = Except.error e → e = { message := "Parser error." }) ∧
    (WellFormed (fromJson raw) → ∃ infos, parse fromJson raw = Except.ok infos) ∧
    (∀ members worldSize,
      QJsonObject.value members "worldSize" = QJsonValue.array worldSize →
      ∃ info, parseSimulationInfo (QJsonValue.object members) = Except.ok info) := by
  have hok : WellFormed (fromJson raw) → ∃ infos, parse fromJson raw = Except.ok infos := by
    rintro ⟨key, items, hdoc, hall⟩
    obtain ⟨infos, hparse, _⟩ := Parser.parse_wellFormed fromJson raw key items hdoc hall
    exact ⟨infos, hparse⟩
  refine ⟨⟨?_, ?_⟩, ?_, hok, ?_⟩
  · rintro ⟨e, he⟩ hwf
    obtain ⟨infos, hparse⟩ := hok hwf
    rw [hparse] at he
    cases he
  · intro hwf
    exact ⟨_, Parser.parse_not_wellFormed fromJson raw hwf⟩
  · intro e he
    by_cases hwf : WellFormed (fromJson raw)
    · obtain ⟨infos, hparse⟩ := hok hwf
      rw [hparse] at he
      cases he
    · rw [Parser.parse_not_wellFormed fromJson raw hwf] at he
      cases he
      rfl
  · intro members worldSize hw
    exact ⟨_, Parser.parseSimulationInfo_object members worldSize hw⟩

/-- Witness of C19: a document whose two elements lack or mistype every member
but `worldSize`, and whose `worldSize` arrays hold fewer than two integers, is
parsed without exception. -/
theorem Parser.parse_raises_iff_witness :
    WellFormed (QJsonDocument.object [("data", QJsonValue.array
      [QJsonValue.object [("worldSize", QJsonValue.array [])],
       QJsonValue.object [("id", QJsonValue.string "seven"),
         ("isActive", QJsonValue.double 1),
         ("worldSize", QJsonValue.array [QJsonValue.double 3])]])]) ∧
    ∃ infos, parse (fun _ => QJsonDocument.object [("data", QJsonValue.array
      [QJsonValue.object [("worldSize", QJsonValue.array [])],
       QJsonValue.object [("id", QJsonValue.string "seven"),
         ("isActive", QJsonValue.double 1),
         ("worldSize", QJsonValue.array [QJsonValue.double 3])]])]) [] = Except.ok infos :=
  have hwf : WellFormed (QJsonDocument.object [("data", QJsonValue.array
      [QJsonValue.object [("worldSize", QJsonValue.array [])],
       QJsonValue.object [("id", QJsonValue.string "seven"),
         ("isActive", QJsonValue.double 1),
         ("worldSize", QJsonValue.array [QJsonValue.double 3])]])]) :=
    ⟨"data", _, rfl, by
      intro v hv
      simp only [List.mem_cons, List.mem_singleton, List.not_mem_nil, or_false] at hv
      rcases hv with rfl | rfl
      · exact ⟨_, [], rfl, by simp [QJsonObject.value]⟩
      · exact ⟨_, [QJsonValue.double 3], rfl, by simp [QJsonObject.value]⟩⟩
  ⟨hwf, (Parser.parse_raises_iff _ []).2.2.1 hwf⟩

/-- C20: whenever `parse` accepts its input, the document is an object with one
key holding an array, the result has one record per element of the array, in
array order (none for an empty array), and record `k` is built from the members
of element `k` alone: `simulationId` is the decimal string of the integer `id`,
`worldSize` is `(worldSize[0], worldSize[1])`; a member that is missing reads as
`Undefined`, which gives 0, `false` or the empty string. -/
theorem Parser.parse_result (fromJson : QByteArray → QJsonDocument) (raw : QByteArray)
    (infos : List SimulationInfo) (h : parse fromJson raw = Except.ok infos) :
    (∃ key items, fromJson raw = QJsonDocument.object [(key, QJsonValue.array items)] ∧
      infos.length = items.length ∧ (items = [] → infos = []) ∧
      ∀ k v, items.get? k = some v →
        ∃ members worldSize, v = QJsonValue.object members ∧
          QJsonObject.value members "worldSize" = QJsonValue.array worldSize ∧
          infos.get? k = some
            { simulationId := toString (QJsonObject.value members "id").toInt,
              isActive := (QJsonObject.value members "isActive").toBool,
              simulationName := (QJsonObject.value members "simulationName").toStdString,
              userName := (QJsonObject.value members "userName").toStdString,
              timestep := (QJsonObject.value members "timestep").toInt,
              worldSize := { x := (QJsonArray.at worldSize 0).toInt,
                             y := (QJsonArray.at worldSize 1).toInt } }) ∧
    (∀ members key, (∀ e ∈ members, e.1 ≠ key) →
      QJsonObject.value members key = QJsonValue.undefined) ∧
    (∀ worldSize k, List.length worldSize ≤ k →
      QJsonArray.at worldSize k = QJsonValue.undefined) ∧
    QJsonValue.undefined.toInt = 0 ∧ QJsonValue.undefined.toBool = false ∧
    QJsonValue.undefined.toStdString = "" := by
  refine ⟨?_, Parser.value_missing, ?_, rfl, rfl, rfl⟩
  · by_cases hwf : WellFormed (fromJson raw)
    · obtain ⟨key, items, hdoc, hall⟩ := hwf
      obtain ⟨infos', hparse, hrel⟩ :=
        Parser.parse_wellFormed fromJson raw key items hdoc hall
      rw [hparse] at h
      cases h
      refine ⟨key, items, hdoc, hrel.length_eq.symm, ?_, ?_⟩
      · rintro rfl
        cases hrel
        rfl
      · intro k v hv
        obtain ⟨members, worldSize, rfl, hw⟩ := hall v (List.mem_iff_get?.mpr ⟨k, hv⟩)
        obtain ⟨info, hinfo, hR⟩ := Parser.forall2_get _ _ _ hrel k _ hv
        rw [Parser.parseSimulationInfo_object members worldSize hw] at hR
        cases hR
        exact ⟨members, worldSize, rfl, hw, hinfo⟩
    · rw [Parser.parse_not_wellFormed fromJson raw hwf] at h
      cases h
  · intro worldSize k hk
    rw [QJsonArray.at, List.get?_eq_none.mpr hk]
    rfl

/-- Witness of C20: a document with one complete element and one element that
only has an empty `worldSize`. -/
theorem Parser.parse_result_witness :
    parse (fun _ => QJsonDocument.object [("data", QJsonValue.array
        [QJsonValue.object [("id", QJsonValue.double 42), ("isActive", QJsonValue.bool true),
           ("simulationName", QJsonValue.string "ocean"),
           ("userName", QJsonValue.string "ada"), ("timestep", QJsonValue.double 1000),
           ("worldSize", QJsonValue.array [QJsonValue.double 1008, QJsonValue.double 504])],
         QJsonValue.object [("worldSize", QJsonValue.array [])]])]) []
      = Except.ok
        [{ simulationId := "42", isActive := true, simulationName := "ocean",
           userName := "ada", timestep := 1000, worldSize := { x := 1008, y := 504 } },
         { simulationId := "0", isActive := false, simulationName := "",
           userName := "", timestep := 0, worldSize := { x := 0, y := 0 } }] ∧
    ([{ simulationId := "42", isActive := true, simulationName := "ocean",
        userName := "ada", timestep := 1000, worldSize := { x := 1008, y := 504 } },
      { simulationId := "0", isActive := false, simulationName := "",
        userName := "", timestep := 0, worldSize := { x := 0, y := 0 } }] :
      List SimulationInfo).length = 2 :=
  have hparse : parse (fun _ => QJsonDocument.object [("data", QJsonValue.array
        [QJsonValue.object [("id", QJsonValue.double 42), ("isActive", QJsonValue.bool true),
           ("simulationName", QJsonValue.string "ocean"),
           ("userName", QJsonValue.string "ada"), ("timestep", QJsonValue.double 1000),
           ("worldSize", QJsonValue.array [QJsonValue.double 1008, QJsonValue.double 504])],
         QJsonValue.object [("worldSize", QJsonValue.array [])]])]) []
      = Except.ok
        [{ simulationId := "42", isActive := true, simulationName := "ocean",
           userName := "ada", timestep := 1000, worldSize := { x := 1008, y := 504 } },
         { simulationId := "0", isActive := false, simulationName := "",
           userName := "", timestep := 0, worldSize := { x := 0, y := 0 } }] := by
    simp [parse, parseLoop, parseSimulationInfo, QJsonValue.isArray, QJsonValue.toArray,
      QJsonValue.isObject, QJsonValue.toObject, QJsonObject.value, QJsonArray.at,
      QJsonValue.toInt, QJsonValue.toBool, QJsonValue.toStdString]
    decide
  ⟨hparse, by
    obtain ⟨key, items, hdoc, hlen, _⟩ := (Parser.parse_result _ [] _ hparse).1
    cases hdoc
    exact hlen⟩

end Web

/-! ## The claims on the web controller -/

namespace Web

open WebControllerImpl

/-- One event sends at most one request of a type, and only when none of that type
is in flight; received data of the type frees it. -/
theorem WebControllerImpl.step_count (fromJson : QByteArray → QJsonDocument)
    (c : WebControllerImpl) (e : Event) (t : RequestType) :
    ((step fromJson c e).2.filter (Signal.isRequestOf t)).length
        + (if t ∈ c.requesting then 1 else 0)
      ≤ (if e.isDataReceivedOf t then 1 else 0)
        + (if t ∈ (step fromJson c e).1.requesting then 1 else 0) := by
  cases e with
  | get apiMethodName requestType =>
    by_cases hin : requestType ∈ c.requesting
    · simp [step, get, hin, Event.isDataReceivedOf]
    · by_cases ht : requestType = t
      · subst ht
        simp [step, get, hin, Event.isDataReceivedOf, Signal.isRequestOf]
      · have ht' : ¬ t = requestType := fun h => ht h.symm
        simp [step, get, hin, Event.isDataReceivedOf, Signal.isRequestOf, ht, ht']
  | post apiMethodName requestType keyValues =>
    by_cases hin : requestType ∈ c.requesting
    · simp [step, post, hin, Event.isDataReceivedOf]
    · by_cases ht : requestType = t
      · subst ht
        simp [step, post, hin, Event.isDataReceivedOf, Signal.isRequestOf]
      · have ht' : ¬ t = requestType := fun h => ht h.symm
        simp [step, post, hin, Event.isDataReceivedOf, Signal.isRequestOf, ht, ht']
  | dataReceived handler data =>
    have hsig : ((dataReceived fromJson c handler data).2.filter
        (Signal.isRequestOf t)).length = 0 := by
      unfold dataReceived
      cases handler with
      | SimulationInfo =>
        cases Parser.parse fromJson data <;> simp [Signal.isRequestOf]
      | Connect => simp [Signal.isRequestOf]
      | Disconnect => simp
    have hstate : (dataReceived fromJson c handler data).1.requesting
        = c.requesting.erase handler := by
      unfold dataReceived
      cases handler with
      | SimulationInfo => cases Parser.parse fromJson data <;> rfl
      | Connect => rfl
      | Disconnect => rfl
    simp only [step, hsig, hstate, Event.isDataReceivedOf, Finset.mem_erase]
    by_cases ht : handler = t
    · subst ht
      simp
      split <;> omega
    · have ht' : ¬ t = handler := fun h => ht h.symm
      simp [ht, ht']
  | httpError message =>
    simp [step, httpError, Event.isDataReceivedOf, Signal.isRequestOf]

/-- Along any sequence of events, the requests sent for a type exceed the data
received for it by at most the request in flight. -/
theorem WebControllerImpl.run_count (fromJson : QByteArray → QJsonDocument)
    (events : List Event) (c : WebControllerImpl) (t : RequestType) :
    ((run fromJson events c).2.filter (Signal.isRequestOf t)).length
        + (if t ∈ c.requesting then 1 else 0)
      ≤ (events.filter (Event.isDataReceivedOf t)).length
        + (if t ∈ (run fromJson events c).1.requesting then 1 else 0) := by
  induction events generalizing c with
  | nil => simp [run]
  | cons e rest ih =>
    have h1 := WebControllerImpl.step_count fromJson c e t
    have h2 := ih (step fromJson c e).1
    simp only [run, List.filter_append, List.length_append, List.filter_cons]
    cases hd : e.isDataReceivedOf t
    · simp only [hd, Bool.false_eq_true, if_false] at h1 ⊢
      omega
    · simp only [hd, if_true, List.length_cons] at h1 ⊢
      omega

/-- After data was received for a request type, the type is no longer in flight
and the next `get` of that type sends its request. -/
theorem WebControllerImpl.dataReceived_releases (fromJson : QByteArray → QJsonDocument)
    (c : WebControllerImpl) (t : RequestType) (data : QByteArray) (apiMethodName : String) :
    t ∉ (dataReceived fromJson c t data).1.requesting ∧
    ((dataReceived fromJson c t data).1.get apiMethodName t).2
      = [Signal.httpGet (host ++ apiMethodName) t] := by
  have hstate : (dataReceived fromJson c t data).1.requesting = c.requesting.erase t := by
    unfold dataReceived
    cases t with
    | SimulationInfo => cases Parser.parse fromJson data <;> rfl
    | Connect => rfl
    | Disconnect => rfl
  have hnot : t ∉ (dataReceived fromJson c t data).1.requesting := by
    rw [hstate]; simp
  exact ⟨hnot, by simp [get, hnot]⟩

/-- C21: after every sequence of events, a `get` or `post` whose request type is
in the in-flight set sends nothing and leaves the controller unchanged, and one
whose type is not in the set sends exactly one HTTP request and adds the type;
so the requests sent for a type never exceed the data received for it by more
than one. -/
theorem WebControllerImpl.one_request_per_type (fromJson : QByteArray → QJsonDocument)
    (events : List Event) (t : RequestType) (apiMethodName : String)
    (keyValues : List (String × String)) :
    (t ∈ (run fromJson events construct).1.requesting →
      (run fromJson events construct).1.get apiMethodName t
        = ((run fromJson events construct).1, []) ∧
      (run fromJson events construct).1.post apiMethodName t keyValues
        = ((run fromJson events construct).1, [])) ∧
    (t ∉ (run fromJson events construct).1.requesting →
      (run fromJson events construct).1.get apiMethodName t
        = ({ requesting := insert t (run fromJson events construct).1.requesting },
           [Signal.httpGet (host ++ apiMethodName) t]) ∧
      (run fromJson events construct).1.post apiMethodName t keyValues
        = ({ requesting := insert t (run fromJson events construct).1.requesting },
           [Signal.httpPost (host ++ apiMethodName) t keyValues])) ∧
    ((run fromJson events construct).2.filter (Signal.isRequestOf t)).length
      ≤ (events.filter (Event.isDataReceivedOf t)).length + 1 := by
  refine ⟨fun hin => ⟨by simp [get, hin], by simp [post, hin]⟩,
    fun hin => ⟨by simp [get, hin], by simp [post, hin]⟩, ?_⟩
  have h := WebControllerImpl.run_count fromJson events construct t
  simp only [construct, Finset.not_mem_empty, if_false, Nat.add_zero] at h
  have hle : (if t ∈ (run fromJson events { requesting := ∅ }).1.requesting then 1 else 0)
      ≤ 1 := by split <;> omega
  simp only [construct]
  omega

/-- Witness of C21: after one `get` of the simulation list, a second `get` of the
same type sends nothing, and a `post` of another type sends one request. -/
theorem WebControllerImpl.one_request_per_type_witness :
    RequestType.SimulationInfo ∈
      (run (fun _ => QJsonDocument.null)
        [Event.get apiGetSimulation RequestType.SimulationInfo] construct).1.requesting ∧
    (run (fun _ => QJsonDocument.null)
        [Event.get apiGetSimulation RequestType.SimulationInfo] construct).1.get
        apiGetSimulation RequestType.SimulationInfo
      = ((run (fun _ => QJsonDocument.null)
        [Event.get apiGetSimulation RequestType.SimulationInfo] construct).1, []) :=
  ⟨by decide,
   ((WebControllerImpl.one_request_per_type (fun _ => QJsonDocument.null)
      [Event.get apiGetSimulation RequestType.SimulationInfo] RequestType.SimulationInfo
      apiGetSimulation []).1 (by decide)).1⟩

/-- C22: on the failing input, a `get` of the simulation list whose request ends
with an HTTP error followed by a second `get`: one HTTP request only is sent, the
error is passed on, and the request type is still in the in-flight set. -/
theorem WebControllerImpl.request_type_stuck_after_error :
    run (fun _ => QJsonDocument.null)
        [Event.get apiGetSimulation RequestType.SimulationInfo,
         Event.httpError "connection refused",
         Event.get apiGetSimulation RequestType.SimulationInfo] construct
      = ({ requesting := {RequestType.SimulationInfo} },
         [Signal.httpGet "http://localhost/api/getsimulation" RequestType.SimulationInfo,
          Signal.error "connection refused"]) := by
  decide

end Web

/-! ## The claims on the autosave controller and the menu bar -/

namespace Gui

open AutosaveController

/-- A call of `process` schedules a save only while autosave is on, in a minute
that is a positive multiple of 40, and when no save was scheduled since the last
reset. -/
theorem AutosaveController.process_save (c : AutosaveController) (d : Int)
    (h : AutosaveEffect.delayedSave ∈ (c.process d).2) :
    c.on_ = true ∧ 0 < d ∧ Int.tmod d 40 = 0 ∧ c.alreadySaved = false := by
  unfold process at h
  by_cases hon : c.on_ = true
  · by_cases hs : d > 0 ∧ Int.tmod d MinutesForAutosave = 0 ∧ c.alreadySaved = false
    · exact ⟨hon, hs.1, hs.2.1, hs.2.2⟩
    · simp only [hon, Bool.not_true, Bool.false_eq_true, if_false, hs] at h
      split at h <;> simp at h
  · simp [hon] at h

/-- Every save a sequence of calls schedules falls in a minute that is a positive
multiple of 40. -/
theorem AutosaveController.savesOf_mark (calls : List AutosaveCall) (c : AutosaveController)
    (minute : Int) (h : minute ∈ savesOf calls c) : 0 < minute ∧ Int.tmod minute 40 = 0 := by
  induction calls generalizing c with
  | nil => simp [savesOf] at h
  | cons call rest ih =>
    cases call with
    | setOn value => exact ih _ (by simpa [savesOf] using h)
    | process d =>
      simp only [savesOf, List.mem_append] at h
      rcases h with h | h
      · by_cases hs : AutosaveEffect.delayedSave ∈ (c.process d).2
        · simp only [hs, if_true, List.mem_singleton] at h
          have := AutosaveController.process_save c d hs
          rw [h]
          exact ⟨this.2.1, this.2.2.1⟩
        · simp [hs] at h
      · exact ih _ h

/-- C23: on the failing input, autosave is switched off after the save of minute
40 and on again after minute 41; `process` is then called with autosave on during
minute 80 and schedules no save: the only save of the sequence is the one of
minute 40. -/
theorem AutosaveController.no_save_at_second_mark :
    savesOf [AutosaveCall.process 39, AutosaveCall.process 40, AutosaveCall.process 40,
        AutosaveCall.setOn false, AutosaveCall.process 41, AutosaveCall.setOn true,
        AutosaveCall.process 42, AutosaveCall.process 79, AutosaveCall.process 80]
      (construct true) = [40] ∧
    stateAfter [AutosaveCall.process 39, AutosaveCall.process 40, AutosaveCall.process 40,
        AutosaveCall.setOn false, AutosaveCall.process 41, AutosaveCall.setOn true,
        AutosaveCall.process 42, AutosaveCall.process 79]
      (construct true) = { on_ := true, alreadySaved := true } ∧
    process { on_ := true, alreadySaved := true } 80
      = ({ on_ := true, alreadySaved := true }, []) := by
  decide

/-- C24: on the failing inputs, with no user logged in and the edit mode off,
ALT+T makes the call of the Logout item and ALT+S the call of the Selection item,
although both menu items are disabled in that state. -/
theorem hotkey_fires_for_disabled_item :
    (processHotkeys (fun _ s => s)
        { wantCaptureKeyboard := false, keyCtrl := false, keyAlt := true, pressed := [Key.T] }
        { simulationRunning := false, loggedIn := false, editMode := false,
          objectInspectionPossible := false, genomeInspectionPossible := false,
          inspectionWindowsActive := false, copyingPossible := false,
          pastingPossible := false, desktopMode := false }).triggered
      = [menuAction MenuItem.Logout] ∧
    menuEnabled
        { simulationRunning := false, loggedIn := false, editMode := false,
          objectInspectionPossible := false, genomeInspectionPossible := false,
          inspectionWindowsActive := false, copyingPossible := false,
          pastingPossible := false, desktopMode := false } MenuItem.Logout = false ∧
    (processHotkeys (fun _ s => s)
        { wantCaptureKeyboard := false, keyCtrl := false, keyAlt := true, pressed := [Key.S] }
        { simulationRunning := false, loggedIn := false, editMode := false,
          objectInspectionPossible := false, genomeInspectionPossible := false,
          inspectionWindowsActive := false, copyingPossible := false,
          pastingPossible := false, desktopMode := false }).triggered
      = [menuAction MenuItem.Selection] ∧
    menuEnabled
        { simulationRunning := false, loggedIn := false, editMode := false,
          objectInspectionPossible := false, genomeInspectionPossible := false,
          inspectionWindowsActive := false, copyingPossible := false,
          pastingPossible := false, desktopMode := false } MenuItem.Selection = false := by
  decide

end Gui

end Alien
